import Mathlib

/-! # bitfinex-go: a shallow embedding of `bitfinex.go`

The package is a thin client: every endpoint method builds a request, hands it to
the transport, and routes the raw body through `json.Unmarshal` with an
endpoint-specific plausibility check.  The embedding follows the source function by
function.  What the source takes from outside the package is kept outside the
definitions as well:

* the Go standard library calls whose result the package only inspects
  (`json.Unmarshal`, `json.Marshal`, `strings.ToLower`, `strings.ToUpper`,
  `http.Get`, `http.NewRequest`, `client.Do`, `ioutil.ReadAll`, `time.Now`) are the
  fields of `Env`; every endpoint takes an `Env` and the state of the outside
  world `σ` is passed explicitly;
* `base64.StdEncoding`, `hex.EncodeToString`, HMAC and SHA-384 are computed
  (they are what `post` is about).
-/

namespace Bitfinex

/-! ## Values -/

/-- A byte. -/
abbrev Byte := Fin 256

/-- A raw response body (`[]byte`). -/
abbrev Body := List Byte

/-- Go `float64`, kept as its IEEE-754 binary64 bit pattern (a number below `2^64`).
The package never computes with floats; it stores them and compares one with `0`. -/
structure Float64 where
  bits : Nat
  deriving DecidableEq, Repr, Inhabited

/-- Go `f == 0` on a `float64`: true for `+0` and `-0` only, that is when every bit
below the sign bit is clear. -/
def Float64.isZero (f : Float64) : Bool := f.bits % 2 ^ 63 == 0

/-- Go `error` values, by where they come from; `Error.text` is the text. -/
inductive Error where
  /-- The value of `errors.New(s)`. -/
  | errorString (s : String)
  /-- An error of `encoding/json` (`*json.SyntaxError`, `*json.UnmarshalTypeError`, ...). -/
  | json (text : String)
  /-- An error of the transport (`net/http`, `io/ioutil`). -/
  | net (text : String)
  deriving DecidableEq, Repr

/-- Go `err.Error()`. -/
def Error.text : Error → String
  | .errorString s => s
  | .json s => s
  | .net s => s

/-- Go `errors.New`. -/
def errorsNew (text : String) : Error := .errorString text

/-- APIURL points to Bitfinex API URL. -/
def APIURL : String := "https://api.bitfinex.com"

/-- LEND. -/
def LEND : String := "lend"

/-- BORROW. -/
def BORROW : String := "borrow"

/-- API structure stores Bitfinex API credentials. -/
structure API where
  APIKey : String
  APISecret : String
  deriving DecidableEq, Repr

/-- ErrorMessage: `message` is returned only on error. -/
structure ErrorMessage where
  Message : String := ""
  deriving DecidableEq, Repr, Inhabited

/-- Ticker. -/
structure Ticker where
  Mid : Float64 := ⟨0⟩
  Bid : Float64 := ⟨0⟩
  Ask : Float64 := ⟨0⟩
  LastPrice : Float64 := ⟨0⟩
  Low : Float64 := ⟨0⟩
  High : Float64 := ⟨0⟩
  Volume : Float64 := ⟨0⟩
  Timestamp : Float64 := ⟨0⟩
  deriving DecidableEq, Repr, Inhabited

/-- Stat. -/
structure Stat where
  Period : Int := 0
  Volume : Float64 := ⟨0⟩
  deriving DecidableEq, Repr, Inhabited

/-- Stats. -/
abbrev Stats := List Stat

/-- OrderbookOffer. -/
structure OrderbookOffer where
  Price : Float64 := ⟨0⟩
  Amount : Float64 := ⟨0⟩
  Timestamp : Float64 := ⟨0⟩
  deriving DecidableEq, Repr, Inhabited

/-- Orderbook. -/
structure Orderbook where
  Bids : List OrderbookOffer := []
  Asks : List OrderbookOffer := []
  deriving DecidableEq, Repr, Inhabited

/-- LendbookOffer: `FRRString` is the wire field `frr`, `FRR` has no wire field. -/
structure LendbookOffer where
  Rate : Float64 := ⟨0⟩
  Amount : Float64 := ⟨0⟩
  Period : Int := 0
  Timestamp : Float64 := ⟨0⟩
  FRRString : String := ""
  FRR : Bool := false
  deriving DecidableEq, Repr, Inhabited

/-- Lendbook. -/
structure Lendbook where
  Bids : List LendbookOffer := []
  Asks : List LendbookOffer := []
  deriving DecidableEq, Repr, Inhabited

/-- WalletBalance (`Type_` is the source's field `Type`, a reserved word here). -/
structure WalletBalance where
  Type_ : String := ""
  Currency : String := ""
  Amount : Float64 := ⟨0⟩
  Available : Float64 := ⟨0⟩
  deriving DecidableEq, Repr, Inhabited

/-- WalletKey (`Type_` is the source's field `Type`). -/
structure WalletKey where
  Type_ : String
  Currency : String
  deriving DecidableEq, Repr

/-- Go `map[K]V`, kept as a list of entries with pairwise distinct keys.  The order
of the entries has no meaning (Go does not fix an iteration order). -/
abbrev GoMap (κ ν : Type) := List (κ × ν)

/-- Go `m[k] = v`: replaces the value of an existing key, adds an entry otherwise. -/
def GoMap.assign {κ ν : Type} [DecidableEq κ] : GoMap κ ν → κ → ν → GoMap κ ν
  | [], k, v => [(k, v)]
  | (k', v') :: rest, k, v =>
    if k' = k then (k, v) :: rest else (k', v') :: GoMap.assign rest k v

/-- Go `v, ok := m[k]`. -/
def GoMap.get? {κ ν : Type} [DecidableEq κ] : GoMap κ ν → κ → Option ν
  | [], _ => none
  | (k', v') :: rest, k => if k' = k then some v' else GoMap.get? rest k

/-- Keys of a map. -/
def GoMap.keys {κ ν : Type} (m : GoMap κ ν) : List κ := m.map Prod.fst

/-- WalletBalances. -/
abbrev WalletBalances := GoMap WalletKey WalletBalance

/-- MyTrade (`Type_` is the source's field `Type`). -/
structure MyTrade where
  Price : Float64 := ⟨0⟩
  Amount : Float64 := ⟨0⟩
  Timestamp : Float64 := ⟨0⟩
  Until : Float64 := ⟨0⟩
  Exchange : String := ""
  Type_ : String := ""
  FeeCurrency : String := ""
  FeeAmount : Float64 := ⟨0⟩
  TID : Int := 0
  OrderId : Int := 0
  deriving DecidableEq, Repr, Inhabited

/-- MyTrades. -/
abbrev MyTrades := List MyTrade

/-- Offer (`Cacelled` is spelled as in the source, `Type_` is its field `Type`). -/
structure Offer where
  ID : Int := 0
  Currency : String := ""
  Rate : Float64 := ⟨0⟩
  Period : Int := 0
  Direction : String := ""
  Type_ : String := ""
  Timestamp : Float64 := ⟨0⟩
  Live : Bool := false
  Cacelled : Bool := false
  ExecutedAmount : Float64 := ⟨0⟩
  RemainingAmount : Float64 := ⟨0⟩
  OriginalAmount : Float64 := ⟨0⟩
  deriving DecidableEq, Repr, Inhabited

/-- Offers. -/
abbrev Offers := List Offer

/-- Credit. -/
structure Credit where
  ID : Int := 0
  Currency : String := ""
  Rate : Float64 := ⟨0⟩
  Period : Int := 0
  Amount : Float64 := ⟨0⟩
  Status : String := ""
  Timestamp : Float64 := ⟨0⟩
  deriving DecidableEq, Repr, Inhabited

/-- Credits. -/
abbrev Credits := List Credit

/-- The anonymous struct `CancelOffer` decodes into (`tmpOffer`). -/
structure CancelResult where
  ID : Int := 0
  Cancelled : Bool := false
  deriving DecidableEq, Repr, Inhabited

/-- The anonymous request structs handed to `post` (its `payload interface{}`). -/
inductive Payload where
  /-- Fields `{request, nonce}`: WalletBalances, ActiveCredits, ActiveOffers. -/
  | plain (URL Nonce : String)
  /-- Fields `{request, nonce, symbol, timestamp, limit_trades}`: MyTrades. -/
  | mytrades (URL Nonce Symbol Timestamp : String) (LimitTrades : Int)
  /-- Fields `{request, nonce, offer_id}`: CancelOffer. -/
  | cancel (URL Nonce : String) (OfferID : Int)
  /-- Fields `{request, nonce, currency, amount, rate, period, direction}`: NewOffer. -/
  | newOffer (URL Nonce Currency : String) (Amount Rate : Float64) (Period : Int)
      (Direction : String)
  deriving DecidableEq, Repr

/-- An `*http.Request` as `post` builds it: `Header.Add` appends to `header`.  Header
names are kept as the source writes them (`net/http` stores them in canonical letter
case; they are case-insensitive on the wire). -/
structure Request where
  method : String
  url : String
  header : List (String × String)
  body : List Byte
  deriving DecidableEq, Repr

/-- What `json.Unmarshal(body, &v)` leaves behind: the content of `v` after the call
(Go may have filled part of it when it reports an error) and the error, `none`
being Go's `nil`. -/
structure Decoded (α : Type) where
  value : α
  err : Option Error
  deriving DecidableEq, Repr

/-- The world outside the package.  `σ` is the state of the network and the clock;
a call that touches it returns the next state. -/
structure Env (σ : Type) where
  /-- Go `strings.ToLower`. -/
  toLower : String → String
  /-- Go `strings.ToUpper`. -/
  toUpper : String → String
  /-- Go `json.Unmarshal(body, &ticker)` on a zero `Ticker`. -/
  unmarshalTicker : Body → Decoded Ticker
  /-- Go `json.Unmarshal(body, &stats)` on a nil `Stats`. -/
  unmarshalStats : Body → Decoded Stats
  /-- Go `json.Unmarshal(body, &orderbook)` on a zero `Orderbook`. -/
  unmarshalOrderbook : Body → Decoded Orderbook
  /-- Go `json.Unmarshal(body, &lendbook)` on a zero `Lendbook`. -/
  unmarshalLendbook : Body → Decoded Lendbook
  /-- Go `json.Unmarshal(body, &tmpBalances)` on an empty slice. -/
  unmarshalWalletBalances : Body → Decoded (List WalletBalance)
  /-- Go `json.Unmarshal(body, &mytrades)` on a nil `MyTrades`. -/
  unmarshalMyTrades : Body → Decoded MyTrades
  /-- Go `json.Unmarshal(body, &tmpOffer)` on the zero cancel struct. -/
  unmarshalCancelResult : Body → Decoded CancelResult
  /-- Go `json.Unmarshal(body, &credits)` on a nil `Credits`. -/
  unmarshalCredits : Body → Decoded Credits
  /-- Go `json.Unmarshal(body, &offers)` on a nil `Offers`. -/
  unmarshalOffers : Body → Decoded Offers
  /-- Go `json.Unmarshal(body, &offer)` on a zero `Offer`. -/
  unmarshalOffer : Body → Decoded Offer
  /-- Go `json.Unmarshal(body, &errorMessage)` on a zero `ErrorMessage`. -/
  unmarshalErrorMessage : Body → Decoded ErrorMessage
  /-- Go `json.Marshal(payload)`. -/
  marshal : Payload → Except Error (List Byte)
  /-- The error of `http.NewRequest(method, url, body)`, if any. -/
  newRequestError : String → String → Option Error
  /-- Go `http.Get(url)` followed by `ioutil.ReadAll(resp.Body)`. -/
  httpGet : String → σ → Except Error Body × σ
  /-- Go `client.Do(req)` followed by `ioutil.ReadAll(resp.Body)`. -/
  clientDo : Request → σ → Except Error Body × σ
  /-- Go `time.Now().UnixNano()`. -/
  unixNano : σ → Int × σ

/-- Go `strconv.Itoa` and `strconv.FormatInt(n, 10)`. -/
def Itoa (n : Int) : String := toString n

/-! ## Encodings and the signature primitives used by `post` -/

/-- The byte with value `n % 256`. -/
def byte (n : Nat) : Byte := ⟨n % 256, Nat.mod_lt n (by decide)⟩

/-- Go `[]byte(s)` for a string: its UTF-8 bytes. -/
def bytesOfString (s : String) : List Byte := s.toUTF8.data.toList.map (fun b => b.val)

/-- The alphabet of `base64.StdEncoding`. -/
def encodeStd : List Char :=
  "ABCDEFGHIJKLMNOPQRSTUVWXYZabcdefghijklmnopqrstuvwxyz0123456789+/".data

/-- The character of a 6-bit value in `base64.StdEncoding`. -/
def base64Char (n : Nat) : Char := encodeStd.getD n 'A'

/-- Go `base64.StdEncoding.EncodeToString`, as a list of characters: three bytes
become four characters, a last group of one or two bytes is padded with `=`. -/
def base64Chars : List Byte → List Char
  | a :: b :: c :: rest =>
    base64Char (a.val / 4) :: base64Char (a.val % 4 * 16 + b.val / 16) ::
      base64Char (b.val % 16 * 4 + c.val / 64) :: base64Char (c.val % 64) ::
      base64Chars rest
  | [a, b] =>
    [base64Char (a.val / 4), base64Char (a.val % 4 * 16 + b.val / 16),
      base64Char (b.val % 16 * 4), '=']
  | [a] => [base64Char (a.val / 4), base64Char (a.val % 4 * 16), '=', '=']
  | [] => []

/-- Go `base64.StdEncoding.EncodeToString`. -/
def base64Encode (src : List Byte) : String := String.mk (base64Chars src)

/-- The 6-bit value of a character of the standard alphabet. -/
def base64Value (c : Char) : Option Nat :=
  if 'A' ≤ c ∧ c ≤ 'Z' then some (c.toNat - 65)
  else if 'a' ≤ c ∧ c ≤ 'z' then some (c.toNat - 71)
  else if '0' ≤ c ∧ c ≤ '9' then some (c.toNat + 4)
  else if c = '+' then some 62
  else if c = '/' then some 63
  else none

/-- Standard base64 decoding (RFC 4648, with padding) of a list of characters: what
the receiver of the `X-BFX-PAYLOAD` header computes.  Four characters give three
bytes; a final group may end in `==` (one byte) or `=` (two bytes); `none` on
malformed input. -/
def base64DecodeChars : List Char → Option (List Byte)
  | [] => some []
  | p :: q :: r :: s :: rest =>
    if r = '=' ∧ s = '=' ∧ rest = [] then
      match base64Value p, base64Value q with
      | some x, some y => if y % 16 = 0 then some [byte (x * 4 + y / 16)] else none
      | _, _ => none
    else if s = '=' ∧ rest = [] then
      match base64Value p, base64Value q, base64Value r with
      | some x, some y, some z =>
        if z % 4 = 0 then some [byte (x * 4 + y / 16), byte (y % 16 * 16 + z / 4)] else none
      | _, _, _ => none
    else
      match base64Value p, base64Value q, base64Value r, base64Value s,
        base64DecodeChars rest with
      | some x, some y, some z, some u, some tail =>
        some (byte (x * 4 + y / 16) :: byte (y % 16 * 16 + z / 4) :: byte (z % 4 * 64 + u) ::
          tail)
      | _, _, _, _, _ => none
  | _ => none

/-- Standard base64 decoding of a string. -/
def base64Decode (s : String) : Option (List Byte) := base64DecodeChars s.data

/-- The digits of `hex.EncodeToString`. -/
def hextable : List Char := "0123456789abcdef".data

/-- Go `hex.EncodeToString`. -/
def hexEncode (src : List Byte) : String :=
  String.mk (src.flatMap (fun b => [hextable.getD (b.val / 16) '0', hextable.getD (b.val % 16) '0']))

namespace SHA384

/-- The round constants of SHA-384/512 (FIPS 180-4, 4.2.3). -/
def K : List Nat := [
  0x428a2f98d728ae22, 0x7137449123ef65cd, 0xb5c0fbcfec4d3b2f, 0xe9b5dba58189dbbc,
  0x3956c25bf348b538, 0x59f111f1b605d019, 0x923f82a4af194f9b, 0xab1c5ed5da6d8118,
  0xd807aa98a3030242, 0x12835b0145706fbe, 0x243185be4ee4b28c, 0x550c7dc3d5ffb4e2,
  0x72be5d74f27b896f, 0x80deb1fe3b1696b1, 0x9bdc06a725c71235, 0xc19bf174cf692694,
  0xe49b69c19ef14ad2, 0xefbe4786384f25e3, 0x0fc19dc68b8cd5b5, 0x240ca1cc77ac9c65,
  0x2de92c6f592b0275, 0x4a7484aa6ea6e483, 0x5cb0a9dcbd41fbd4, 0x76f988da831153b5,
  0x983e5152ee66dfab, 0xa831c66d2db43210, 0xb00327c898fb213f, 0xbf597fc7beef0ee4,
  0xc6e00bf33da88fc2, 0xd5a79147930aa725, 0x06ca6351e003826f, 0x142929670a0e6e70,
  0x27b70a8546d22ffc, 0x2e1b21385c26c926, 0x4d2c6dfc5ac42aed, 0x53380d139d95b3df,
  0x650a73548baf63de, 0x766a0abb3c77b2a8, 0x81c2c92e47edaee6, 0x92722c851482353b,
  0xa2bfe8a14cf10364, 0xa81a664bbc423001, 0xc24b8b70d0f89791, 0xc76c51a30654be30,
  0xd192e819d6ef5218, 0xd69906245565a910, 0xf40e35855771202a, 0x106aa07032bbd1b8,
  0x19a4c116b8d2d0c8, 0x1e376c085141ab53, 0x2748774cdf8eeb99, 0x34b0bcb5e19b48a8,
  0x391c0cb3c5c95a63, 0x4ed8aa4ae3418acb, 0x5b9cca4f7763e373, 0x682e6ff3d6b2b8a3,
  0x748f82ee5defb2fc, 0x78a5636f43172f60, 0x84c87814a1f0ab72, 0x8cc702081a6439ec,
  0x90befffa23631e28, 0xa4506cebde82bde9, 0xbef9a3f7b2c67915, 0xc67178f2e372532b,
  0xca273eceea26619c, 0xd186b8c721c0c207, 0xeada7dd6cde0eb1e, 0xf57d4f7fee6ed178,
  0x06f067aa72176fba, 0x0a637dc5a2c898a6, 0x113f9804bef90dae, 0x1b710b35131c471b,
  0x28db77f523047d84, 0x32caab7b40c72493, 0x3c9ebe0a15c9bebc, 0x431d67c49c100d4c,
  0x4cc5d4becb3e42b6, 0x597f299cfc657e2a, 0x5fcb6fab3ad6faec, 0x6c44198c4a475817]

/-- The initial hash value of SHA-384 (FIPS 180-4, 5.3.4). -/
def init : List Nat := [
  0xcbbb9d5dc1059ed8, 0x629a292a367cd507, 0x9159015a3070dd17, 0x152fecd8f70e5939,
  0x67332667ffc00b31, 0x8eb44a8768581511, 0xdb0c2e0d64f98fa7, 0x47b5481dbefa4fa4]

/-- Rotate a 64-bit word right by `n`. -/
def rotr (n x : Nat) : Nat := (x >>> n ||| x <<< (64 - n)) % 2 ^ 64

/-- Addition of 64-bit words. -/
def add (x y : Nat) : Nat := (x + y) % 2 ^ 64

/-- The function `Ch(x, y, z)`. -/
def ch (x y z : Nat) : Nat := (x &&& y) ^^^ ((x ^^^ (2 ^ 64 - 1)) &&& z)

/-- The function `Maj(x, y, z)`. -/
def maj (x y z : Nat) : Nat := (x &&& y) ^^^ (x &&& z) ^^^ (y &&& z)

/-- The function `Σ0`. -/
def bigSigma0 (x : Nat) : Nat := rotr 28 x ^^^ rotr 34 x ^^^ rotr 39 x

/-- The function `Σ1`. -/
def bigSigma1 (x : Nat) : Nat := rotr 14 x ^^^ rotr 18 x ^^^ rotr 41 x

/-- The function `σ0`. -/
def smallSigma0 (x : Nat) : Nat := rotr 1 x ^^^ rotr 8 x ^^^ x >>> 7

/-- The function `σ1`. -/
def smallSigma1 (x : Nat) : Nat := rotr 19 x ^^^ rotr 61 x ^^^ x >>> 6

/-- The `n` big-endian bytes of `v`. -/
def bigEndian (n v : Nat) : List Byte :=
  (List.range n).map (fun i => byte (v >>> (8 * (n - 1 - i))))

/-- The number with the given big-endian bytes. -/
def ofBigEndian (bs : List Byte) : Nat := bs.foldl (fun acc b => acc * 256 + b.val) 0

/-- Padding: a `1` bit, zeros, and the bit length in 128 bits, to a multiple of 128
bytes. -/
def pad (msg : List Byte) : List Byte :=
  msg ++ byte 128 :: List.replicate ((128 - (msg.length + 17) % 128) % 128) (byte 0) ++
    bigEndian 16 (8 * msg.length)

/-- The message schedule `W_0 .. W_79` of one 128-byte block. -/
def schedule (block : List Byte) : List Nat :=
  (List.range 64).foldl
    (fun w i =>
      let t := i + 16
      w ++ [add (add (smallSigma1 (w.getD (t - 2) 0)) (w.getD (t - 7) 0))
        (add (smallSigma0 (w.getD (t - 15) 0)) (w.getD (t - 16) 0))])
    ((List.range 16).map (fun j => ofBigEndian ((block.drop (8 * j)).take 8)))

/-- One round on the working variables `[a, b, c, d, e, f, g, h]`. -/
def round (v : List Nat) (kw : Nat × Nat) : List Nat :=
  match v with
  | [a, b, c, d, e, f, g, h] =>
    let t1 := add (add (add h (bigSigma1 e)) (add (ch e f g) kw.1)) kw.2
    let t2 := add (bigSigma0 a) (maj a b c)
    [add t1 t2, a, b, c, add d t1, e, f, g]
  | _ => v

/-- The compression of one block into the hash state. -/
def compress (h : List Nat) (block : List Byte) : List Nat :=
  List.zipWith add h ((K.zip (schedule block)).foldl round h)

/-- SHA-384 of a message: 48 bytes. -/
def sum (msg : List Byte) : List Byte :=
  let m := pad msg
  let h := (List.range (m.length / 128)).foldl
    (fun h i => compress h ((m.drop (128 * i)).take 128)) init
  (h.take 6).flatMap (bigEndian 8)

end SHA384

/-- Go `hmac.New(sha512.New384, key)`, `Write(msg)`, `Sum(nil)`: HMAC (RFC 2104)
with SHA-384, whose block size is 128 bytes. -/
def hmacSHA384 (key msg : List Byte) : List Byte :=
  let k := if key.length > 128 then SHA384.sum key else key
  let k := k ++ List.replicate (128 - k.length) (byte 0)
  let ipad := k.map (fun b => byte (b.val ^^^ 0x36))
  let opad := k.map (fun b => byte (b.val ^^^ 0x5c))
  SHA384.sum (opad ++ SHA384.sum (ipad ++ msg))

/-! ## API query methods -/

/-- New returns a new Bitfinex API instance. -/
def New (key secret : String) : API := { APIKey := key, APISecret := secret }

/-- The method `get`. -/
def API.get {σ : Type} (E : Env σ) (_api : API) (url : String) (w : σ) :
    Except Error Body × σ :=
  E.httpGet (APIURL ++ url) w

/-- The method `post`: the payload is serialised, its base64 text is signed with
HMAC-SHA384 under the secret, and the JSON bytes are sent with the three headers. -/
def API.post {σ : Type} (E : Env σ) (api : API) (url : String) (payload : Payload) (w : σ) :
    Except Error Body × σ :=
  match E.marshal payload with
  | .error err => (.error err, w)
  | .ok payloadJSON =>
    let payloadBase64 := base64Encode payloadJSON
    let signature :=
      hexEncode (hmacSHA384 (bytesOfString api.APISecret) (bytesOfString payloadBase64))
    match E.newRequestError "POST" (APIURL ++ url) with
    | some err => (.error err, w)
    | none =>
      let req : Request := ⟨"POST", APIURL ++ url, [], payloadJSON⟩
      let req := { req with header := req.header ++ [("X-BFX-APIKEY", api.APIKey)] }
      let req := { req with header := req.header ++ [("X-BFX-PAYLOAD", payloadBase64)] }
      let req := { req with header := req.header ++ [("X-BFX-SIGNATURE", signature)] }
      E.clientDo req w

/-! ## Main API methods -/

/-- Ticker returns innermost bid and asks and information on the most recent trade. -/
def API.Ticker {σ : Type} (E : Env σ) (api : API) (symbol : String) (w : σ) :
    (Ticker × Option Error) × σ :=
  let symbol := E.toLower symbol
  match api.get E ("/v1/ticker/" ++ symbol) w with
  | (.error err, w) => (({}, some err), w)
  | (.ok body, w) =>
    let d := E.unmarshalTicker body
    if d.err.isSome || d.value.LastPrice.isZero then
      let m := E.unmarshalErrorMessage body
      match m.err with
      | some err => ((d.value, some err), w)
      | none => ((d.value, some (errorsNew ("API: " ++ m.value.Message))), w)
    else
      ((d.value, none), w)

/-- Stats return various statistics about the requested pairs. -/
def API.Stats {σ : Type} (E : Env σ) (api : API) (symbol : String) (w : σ) :
    (Stats × Option Error) × σ :=
  let symbol := E.toLower symbol
  match api.get E ("/v1/stats/" ++ symbol) w with
  | (.error err, w) => (([], some err), w)
  | (.ok body, w) =>
    let d := E.unmarshalStats body
    if d.err.isSome || d.value.length == 0 then
      let m := E.unmarshalErrorMessage body
      match m.err with
      | some err => ((d.value, some err), w)
      | none => ((d.value, some (errorsNew ("API: " ++ m.value.Message))), w)
    else
      ((d.value, none), w)

/-- Orderbook returns the full order book. -/
def API.Orderbook {σ : Type} (E : Env σ) (api : API) (symbol : String)
    (limitBids limitAsks group : Int) (w : σ) : (Orderbook × Option Error) × σ :=
  let symbol := E.toLower symbol
  match api.get E ("/v1/book/" ++ symbol ++ "?limit_bids=" ++ Itoa limitBids ++
      "&limit_asks=" ++ Itoa limitAsks ++ "&group=" ++ Itoa group) w with
  | (.error err, w) => (({}, some err), w)
  | (.ok body, w) =>
    let d := E.unmarshalOrderbook body
    match d.err with
    | some err => ((d.value, some err), w)
    | none => ((d.value, none), w)

/-- The loop body of `Lendbook` on one offer: `FRR` is set when the `frr` string is
"yes" in any letter case, and the offer is left as it is otherwise. -/
def convertFRR {σ : Type} (E : Env σ) (e : LendbookOffer) : LendbookOffer :=
  if E.toLower e.FRRString = "yes" then { e with FRR := true } else e

/-- Lendbook returns the full lend book. -/
def API.Lendbook {σ : Type} (E : Env σ) (api : API) (currency : String)
    (limitBids limitAsks : Int) (w : σ) : (Lendbook × Option Error) × σ :=
  let currency := E.toLower currency
  match api.get E ("/v1/lendbook/" ++ currency ++ "?limit_bids=" ++ Itoa limitBids ++
      "&limit_asks=" ++ Itoa limitAsks) w with
  | (.error err, w) => (({}, some err), w)
  | (.ok body, w) =>
    let d := E.unmarshalLendbook body
    match d.err with
    | some err => ((d.value, some err), w)
    | none =>
      let lendbook := d.value
      if (limitAsks ≠ 0 ∧ lendbook.Asks.length = 0) ∨
          (limitBids ≠ 0 ∧ lendbook.Bids.length = 0) then
        ((lendbook, some (errorsNew "API: Lendbook empty, likely bad currency specified")), w)
      else
        -- Convert FRR strings to boolean values
        let lendbook := { lendbook with Asks := lendbook.Asks.map (convertFRR E) }
        let lendbook := { lendbook with Bids := lendbook.Bids.map (convertFRR E) }
        ((lendbook, none), w)

/-- WalletBalances return your balances. -/
def API.WalletBalances {σ : Type} (E : Env σ) (api : API) (w : σ) :
    (WalletBalances × Option Error) × σ :=
  let (now, w) := E.unixNano w
  let request := Payload.plain "/v1/balances" (Itoa now)
  match api.post E "/v1/balances" request w with
  | (.error err, w) => (([], some err), w)
  | (.ok body, w) =>
    let d := E.unmarshalWalletBalances body
    match d.err with
    | some _ =>
      let m := E.unmarshalErrorMessage body
      match m.err with
      | some err => (([], some err), w)
      | none => (([], some (errorsNew ("API: " ++ m.value.Message))), w)
    | none =>
      let wallet : Bitfinex.WalletBalances :=
        d.value.foldl (fun wallet b => wallet.assign ⟨b.Type_, b.Currency⟩ b) []
      ((wallet, none), w)

/-- MyTrades returns an array of your past trades for the given symbol. -/
def API.MyTrades {σ : Type} (E : Env σ) (api : API) (symbol timestamp : String)
    (limitTrades : Int) (w : σ) : (MyTrades × Option Error) × σ :=
  let symbol := E.toLower symbol
  let (now, w) := E.unixNano w
  let request := Payload.mytrades "/v1/mytrades" (Itoa now) symbol timestamp limitTrades
  match api.post E "/v1/mytrades" request w with
  | (.error err, w) => (([], some err), w)
  | (.ok body, w) =>
    let d := E.unmarshalMyTrades body
    match d.err with
    | some _ =>
      let m := E.unmarshalErrorMessage body
      match m.err with
      | some err => ((d.value, some err), w)
      | none => (([], some (errorsNew ("API: " ++ m.value.Message))), w)
    | none => ((d.value, none), w)

/-- CancelOffer cancel an offer give its id. -/
def API.CancelOffer {σ : Type} (E : Env σ) (api : API) (id : Int) (w : σ) :
    Option Error × σ :=
  let (now, w) := E.unixNano w
  let request := Payload.cancel "/v1/offer/cancel" (Itoa now) id
  match api.post E "/v1/offer/cancel" request w with
  | (.error err, w) => (some err, w)
  | (.ok body, w) =>
    let d := E.unmarshalCancelResult body
    if d.err.isSome || d.value.ID ≠ id then
      let m := E.unmarshalErrorMessage body
      match m.err with
      | some err => (some err, w)
      | none => (some (errorsNew ("API: " ++ m.value.Message)), w)
    else if d.value.Cancelled = true then
      (some (errorsNew "API: Offer already cancelled"), w)
    else
      (none, w)

/-- ActiveCredits return a list of currently lent funds (active credits). -/
def API.ActiveCredits {σ : Type} (E : Env σ) (api : API) (w : σ) :
    (Credits × Option Error) × σ :=
  let (now, w) := E.unixNano w
  let request := Payload.plain "/v1/credits" (Itoa now)
  match api.post E "/v1/credits" request w with
  | (.error err, w) => (([], some err), w)
  | (.ok body, w) =>
    let d := E.unmarshalCredits body
    match d.err with
    | some _ =>
      let m := E.unmarshalErrorMessage body
      match m.err with
      | some err => ((d.value, some err), w)
      | none => ((d.value, some (errorsNew ("API: " ++ m.value.Message))), w)
    | none => ((d.value, none), w)

/-- ActiveOffers return an array of all your live offers (lending or borrowing). -/
def API.ActiveOffers {σ : Type} (E : Env σ) (api : API) (w : σ) :
    (Offers × Option Error) × σ :=
  let (now, w) := E.unixNano w
  let request := Payload.plain "/v1/offers" (Itoa now)
  match api.post E "/v1/offers" request w with
  | (.error err, w) => (([], some err), w)
  | (.ok body, w) =>
    let d := E.unmarshalOffers body
    match d.err with
    | some _ =>
      let m := E.unmarshalErrorMessage body
      match m.err with
      | some err => ((d.value, some err), w)
      | none => ((d.value, some (errorsNew ("API: " ++ m.value.Message))), w)
    | none => ((d.value, none), w)

/-- NewOffer submits a new offer. -/
def API.NewOffer {σ : Type} (E : Env σ) (api : API) (currency : String)
    (amount rate : Float64) (period : Int) (direction : String) (w : σ) :
    (Offer × Option Error) × σ :=
  let currency := E.toUpper currency
  let direction := E.toLower direction
  let (now, w) := E.unixNano w
  let request :=
    Payload.newOffer "/v1/offer/new" (Itoa now) currency amount rate period direction
  match api.post E "/v1/offer/new" request w with
  | (.error err, w) => (({}, some err), w)
  | (.ok body, w) =>
    let d := E.unmarshalOffer body
    if d.err.isSome || d.value.ID = 0 then
      let m := E.unmarshalErrorMessage body
      match m.err with
      | some err => ((d.value, some err), w)
      | none => ((d.value, some (errorsNew ("API: " ++ m.value.Message))), w)
    else
      ((d.value, none), w)

/-! ## API helper methods -/

/-- The `for _, o := range offers` loop of `CancelActiveOffers`: each offer is
cancelled in turn and the first error returns at once. -/
def API.cancelEach {σ : Type} (E : Env σ) (api : API) : Offers → σ → Option Error × σ
  | [], w => (none, w)
  | o :: rest, w =>
    match api.CancelOffer E o.ID w with
    | (some err, w) => (some err, w)
    | (none, w) => API.cancelEach E api rest w

/-- CancelActiveOffers. -/
def API.CancelActiveOffers {σ : Type} (E : Env σ) (api : API) (w : σ) : Option Error × σ :=
  match api.ActiveOffers E w with
  | ((_, some err), w) => (some err, w)
  | ((offers, none), w) => api.cancelEach E offers w

/-- The loop of `CancelActiveOffersByCurrency`: offers whose lower-cased currency
differs from `currency` are skipped. -/
def API.cancelEachByCurrency {σ : Type} (E : Env σ) (api : API) (currency : String) :
    Offers → σ → Option Error × σ
  | [], w => (none, w)
  | o :: rest, w =>
    if E.toLower o.Currency = currency then
      match api.CancelOffer E o.ID w with
      | (some err, w) => (some err, w)
      | (none, w) => API.cancelEachByCurrency E api currency rest w
    else
      API.cancelEachByCurrency E api currency rest w

/-- CancelActiveOffersByCurrency. -/
def API.CancelActiveOffersByCurrency {σ : Type} (E : Env σ) (api : API) (currency : String)
    (w : σ) : Option Error × σ :=
  let currency := E.toLower currency
  match api.ActiveOffers E w with
  | ((_, some err), w) => (some err, w)
  | ((offers, none), w) => api.cancelEachByCurrency E currency offers w

/-! ## Notions used to state the composite helpers -/

/-- The state of the world after `CancelOffer` has been called for the given ids, one
after the other, in the order of the list. -/
def worldAfterCancels {σ : Type} (E : Env σ) (api : API) (ids : List Int) (w : σ) : σ :=
  ids.foldl (fun w id => (api.CancelOffer E id w).2) w

/-- Two currency strings are equal ignoring letter case: they have the same lower
case form. -/
def equalIgnoringCase {σ : Type} (E : Env σ) (a b : String) : Bool :=
  decide (E.toLower a = E.toLower b)

/-- The same world, except that the listing of active offers shows only the offers
that satisfy `keep` (in their listed order). -/
def Env.listingOnly {σ : Type} (E : Env σ) (keep : Offer → Bool) : Env σ :=
  { E with
    unmarshalOffers := fun body =>
      ⟨(E.unmarshalOffers body).value.filter keep, (E.unmarshalOffers body).err⟩ }

/-- The returned offer `e'` against the parsed offer `e`: every field other than `FRR`
is the parsed one, and `FRR` is true when the `frr` string of the offer is "yes" in
lower case, the parsed `FRR` otherwise. -/
def frrConverted {σ : Type} (E : Env σ) (e e' : LendbookOffer) : Prop :=
  e'.Rate = e.Rate ∧ e'.Amount = e.Amount ∧ e'.Period = e.Period ∧
    e'.Timestamp = e.Timestamp ∧ e'.FRRString = e.FRRString ∧
    (E.toLower e.FRRString = "yes" → e'.FRR = true) ∧
    (E.toLower e.FRRString ≠ "yes" → e'.FRR = e.FRR)

/-! ## A scripted exchange

For running the endpoints on concrete inputs: the exchange is a script of replies,
and each decoder of `sampleEnv` is a table of the bodies that the examples below feed
it, with the outcome `encoding/json` gives for that body and destination type.  A
body outside a decoder's table is answered the way the empty body is; no example
relies on that except with the empty body itself.  Nothing general is proved about
`sampleEnv`: the theorems hold for every `Env`. -/

/-- State of a scripted exchange: the replies still to come, the requests received
so far, and the clock. -/
structure Script where
  replies : List (Except Error Body)
  received : List Request
  clock : Int

/-- The scripted exchange records the request and gives its next reply. -/
def Script.serve (req : Request) (w : Script) : Except Error Body × Script :=
  match w.replies with
  | [] => (.error (.net "EOF"), { w with received := w.received ++ [req] })
  | r :: rest => (r, { w with replies := rest, received := w.received ++ [req] })

/-- A script that answers with the given bodies, in order. -/
def Script.ofBodies (bodies : List String) : Script :=
  ⟨bodies.map (fun b => .ok (bytesOfString b)), [], 1⟩

/-- Decoding by table: a listed body gets the listed outcome, any other body is
answered like the empty body (`unexpected end of JSON input`, destination
untouched). -/
def answer {α : Type} (zero : α) (rows : List (String × Decoded α)) (body : Body) :
    Decoded α :=
  match rows.find? (fun r => bytesOfString r.1 == body) with
  | some r => r.2
  | none => ⟨zero, some (.json "unexpected end of JSON input")⟩

/-- Go's `*json.UnmarshalTypeError` for a JSON value of the wrong kind, with the text
it has when the destination is named by its type. -/
def cannotUnmarshal (kind type : String) : Error :=
  .json ("json: cannot unmarshal " ++ kind ++ " into Go value of type " ++ type)

/-- Body `[]`. -/
def bodyEmptyArray : String := "[]"

/-- Body `{}`. -/
def bodyEmptyObject : String := "\x7b\x7d"

/-- Body `{"message":"Unknown symbol"}`: the exchange's error envelope. -/
def bodyUnknownSymbol : String := "\x7b\"message\":\"Unknown symbol\"\x7d"

/-- Body `{"last_price":"244.82"}`. -/
def bodyTicker : String := "\x7b\"last_price\":\"244.82\"\x7d"

/-- Body `{"bids":1,"message":"m"}`: an envelope whose `bids` is not a list. -/
def bodyBadBook : String := "\x7b\"bids\":1,\"message\":\"m\"\x7d"

/-- Body `[{"id":7,"currency":"USD"},{"id":8,"currency":"btc"},{"id":9,"currency":"usd"}]`. -/
def bodyOffers : String :=
  "[\x7b\"id\":7,\"currency\":\"USD\"\x7d,\x7b\"id\":8,\"currency\":\"btc\"\x7d," ++
    "\x7b\"id\":9,\"currency\":\"usd\"\x7d]"

/-- Body `{"id":n,"is_cancelled":c}`. -/
def bodyCancel (n : Nat) (c : Bool) : String :=
  "\x7b\"id\":" ++ toString n ++ ",\"is_cancelled\":" ++ toString c ++ "\x7d"

/-- Body with three balances, the first and the last in the same wallet and currency. -/
def bodyBalances : String :=
  "[\x7b\"type\":\"deposit\",\"currency\":\"usd\",\"amount\":\"1\"\x7d," ++
    "\x7b\"type\":\"trading\",\"currency\":\"btc\",\"amount\":\"0.5\"\x7d," ++
    "\x7b\"type\":\"deposit\",\"currency\":\"usd\",\"amount\":\"2\"\x7d]"

/-- Body `[{"period":1,"volume":"2"}]`. -/
def bodyStats : String := "[\x7b\"period\":1,\"volume\":\"2\"\x7d]"

/-- Body with one bid at the flash return rate (`"frr":"Yes"`) and one ask at a fixed
rate (`"frr":"No"`). -/
def bodyLendbook : String :=
  "\x7b\"bids\":[\x7b\"rate\":\"1\",\"amount\":\"2\",\"period\":2,\"timestamp\":\"1\"," ++
    "\"frr\":\"Yes\"\x7d],\"asks\":[\x7b\"rate\":\"1.5\",\"amount\":\"0.5\",\"period\":30," ++
    "\"timestamp\":\"2\",\"frr\":\"No\"\x7d]\x7d"

/-- The bid of `bodyLendbook` as parsed: `FRR` has no wire field and stays false. -/
def sampleBid : LendbookOffer :=
  { Rate := ⟨0x3ff0000000000000⟩
    Amount := ⟨0x4000000000000000⟩
    Period := 2
    Timestamp := ⟨0x3ff0000000000000⟩
    FRRString := "Yes" }

/-- The ask of `bodyLendbook` as parsed. -/
def sampleAsk : LendbookOffer :=
  { Rate := ⟨0x3ff8000000000000⟩
    Amount := ⟨0x3fe0000000000000⟩
    Period := 30
    Timestamp := ⟨0x4000000000000000⟩
    FRRString := "No" }

/-- The lend book of `bodyLendbook` as parsed. -/
def sampleLendbook : Lendbook := { Bids := [sampleBid], Asks := [sampleAsk] }

/-- The three offers of `bodyOffers`. -/
def sampleOffers : Offers :=
  [{ ID := 7, Currency := "USD" }, { ID := 8, Currency := "btc" }, { ID := 9, Currency := "usd" }]

/-- The three balances of `bodyBalances`. -/
def sampleBalances : List WalletBalance :=
  [{ Type_ := "deposit", Currency := "usd", Amount := ⟨0x3ff0000000000000⟩ },
    { Type_ := "trading", Currency := "btc", Amount := ⟨0x3fe0000000000000⟩ },
    { Type_ := "deposit", Currency := "usd", Amount := ⟨0x4000000000000000⟩ }]

/-- JSON text `{"request":"/v1/balances","nonce":"1"}` of the balances request with
nonce 1. -/
def payloadBalances : String := "\x7b\"request\":\"/v1/balances\",\"nonce\":\"1\"\x7d"

/-- JSON text `{"request":"/v1/offers","nonce":"n"}` of the listing request. -/
def payloadOffers (nonce : Nat) : String :=
  "\x7b\"request\":\"/v1/offers\",\"nonce\":\"" ++ toString nonce ++ "\"\x7d"

/-- JSON text `{"request":"/v1/offer/cancel","nonce":"n","offer_id":id}` of a cancel
request. -/
def payloadCancel (nonce id : Nat) : String :=
  "\x7b\"request\":\"/v1/offer/cancel\",\"nonce\":\"" ++ toString nonce ++
    "\",\"offer_id\":" ++ toString id ++ "\x7d"

/-- The exchange lists the three sample offers, accepts the cancel of offer 7,
reports offer 8 as already cancelled, and would accept the cancel of offer 9. -/
def scriptSecondCancelFails : Script :=
  Script.ofBodies [bodyOffers, bodyCancel 7 false, bodyCancel 8 true, bodyCancel 9 false]

/-- The exchange lists the three sample offers and accepts the cancels of offers 7
and 9. -/
def scriptCancelUsd : Script :=
  Script.ofBodies [bodyOffers, bodyCancel 7 false, bodyCancel 9 false]

/-- JSON text of a string that needs no escaping. -/
def quote (s : String) : String := "\"" ++ s ++ "\""

/-- The sample environment: ASCII letter case, table decoding, the scripted
exchange.  `marshal` writes the payloads with string and integer fields (for
strings that need no escaping); it does not format floats. -/
def sampleEnv : Env Script where
  toLower := fun s => String.mk (s.data.map Char.toLower)
  toUpper := fun s => String.mk (s.data.map Char.toUpper)
  unmarshalTicker := answer {} [
    (bodyTicker, ⟨{ LastPrice := ⟨0x406e9a3d70a3d70a⟩ }, none⟩),
    (bodyUnknownSymbol, ⟨{}, none⟩),
    (bodyEmptyArray, ⟨{}, some (cannotUnmarshal "array" "bitfinex.Ticker")⟩)]
  unmarshalStats := answer [] [
    (bodyStats, ⟨[{ Period := 1, Volume := ⟨0x4000000000000000⟩ }], none⟩),
    (bodyEmptyArray, ⟨[], none⟩),
    (bodyUnknownSymbol, ⟨[], some (cannotUnmarshal "object" "bitfinex.Stats")⟩)]
  unmarshalOrderbook := answer {} [
    (bodyEmptyObject, ⟨{}, none⟩),
    (bodyUnknownSymbol, ⟨{}, none⟩),
    (bodyBadBook, ⟨{}, some (cannotUnmarshal "number" "[]bitfinex.OrderbookOffer")⟩)]
  unmarshalLendbook := answer {} [
    (bodyLendbook, ⟨sampleLendbook, none⟩),
    (bodyEmptyObject, ⟨{}, none⟩),
    (bodyUnknownSymbol, ⟨{}, none⟩),
    (bodyBadBook, ⟨{}, some (cannotUnmarshal "number" "[]bitfinex.LendbookOffer")⟩)]
  unmarshalWalletBalances := answer [] [
    (bodyEmptyArray, ⟨[], none⟩),
    (bodyBalances, ⟨sampleBalances, none⟩)]
  unmarshalMyTrades := answer [] [(bodyEmptyArray, ⟨[], none⟩)]
  unmarshalCancelResult := answer {} [
    (bodyCancel 7 false, ⟨{ ID := 7 }, none⟩),
    (bodyCancel 8 false, ⟨{ ID := 8 }, none⟩),
    (bodyCancel 9 false, ⟨{ ID := 9 }, none⟩),
    (bodyCancel 7 true, ⟨{ ID := 7, Cancelled := true }, none⟩),
    (bodyCancel 8 true, ⟨{ ID := 8, Cancelled := true }, none⟩),
    (bodyCancel 9 true, ⟨{ ID := 9, Cancelled := true }, none⟩),
    (bodyUnknownSymbol, ⟨{}, none⟩)]
  unmarshalCredits := answer [] [(bodyEmptyArray, ⟨[], none⟩)]
  unmarshalOffers := answer [] [
    (bodyEmptyArray, ⟨[], none⟩),
    (bodyOffers, ⟨sampleOffers, none⟩)]
  unmarshalOffer := answer {} [(bodyUnknownSymbol, ⟨{}, none⟩)]
  unmarshalErrorMessage := answer {} [
    (bodyUnknownSymbol, ⟨⟨"Unknown symbol"⟩, none⟩),
    (bodyBadBook, ⟨⟨"m"⟩, none⟩),
    (bodyEmptyObject, ⟨⟨""⟩, none⟩),
    (bodyTicker, ⟨⟨""⟩, none⟩),
    (bodyCancel 7 false, ⟨⟨""⟩, none⟩),
    (bodyCancel 7 true, ⟨⟨""⟩, none⟩),
    (bodyEmptyArray, ⟨⟨""⟩, some (cannotUnmarshal "array" "bitfinex.ErrorMessage")⟩)]
  marshal := fun p =>
    match p with
    | .plain url nonce =>
      .ok (bytesOfString ("\x7b\"request\":" ++ quote url ++ ",\"nonce\":" ++ quote nonce ++
        "\x7d"))
    | .mytrades url nonce symbol timestamp limit =>
      .ok (bytesOfString ("\x7b\"request\":" ++ quote url ++ ",\"nonce\":" ++ quote nonce ++
        ",\"symbol\":" ++ quote symbol ++ ",\"timestamp\":" ++ quote timestamp ++
        ",\"limit_trades\":" ++ Itoa limit ++ "\x7d"))
    | .cancel url nonce id =>
      .ok (bytesOfString ("\x7b\"request\":" ++ quote url ++ ",\"nonce\":" ++ quote nonce ++
        ",\"offer_id\":" ++ Itoa id ++ "\x7d"))
    | .newOffer _ _ _ _ _ _ _ => .error (.json "json: float formatting is outside the sample")
  newRequestError := fun _ _ => none
  httpGet := fun url w => w.serve ⟨"GET", url, [], []⟩
  clientDo := fun req w => w.serve req
  unixNano := fun w => (w.clock, { w with clock := w.clock + 1 })

/-- Sample credentials. -/
def sampleAPI : API := New "key" "secret"


/-! ## The response decoder -/

/-- C1: whenever `Ticker` returns no error the ticker it returns has a nonzero
`LastPrice`; and a body that decodes without error as the all-zero ticker (an error
envelope such as `{"message": m}` does) always yields an error, which is
`API: m` when the body decodes as the envelope with message `m`. -/
theorem ticker_success_has_nonzero_last_price {σ : Type} (E : Env σ) (api : API)
    (symbol : String) (w : σ) :
    ((api.Ticker E symbol w).1.2 = none →
      (api.Ticker E symbol w).1.1.LastPrice.isZero = false) ∧
    (∀ (body : Body) (w' : σ),
      api.get E ("/v1/ticker/" ++ E.toLower symbol) w = (.ok body, w') →
      E.unmarshalTicker body = ⟨{}, none⟩ →
      (api.Ticker E symbol w).1.2 ≠ none ∧
      ∀ m : String, E.unmarshalErrorMessage body = ⟨⟨m⟩, none⟩ →
        (api.Ticker E symbol w).1 = ({}, some (errorsNew ("API: " ++ m)))) := by
  constructor
  · rcases hg : api.get E ("/v1/ticker/" ++ E.toLower symbol) w with ⟨r, w'⟩
    simp only [API.Ticker, hg]
    cases r with
    | error e => simp
    | ok body =>
      dsimp only
      split
      · cases (E.unmarshalErrorMessage body).err <;> simp
      · rename_i hc
        intro _
        simp only [Bool.or_eq_true, not_or, Bool.not_eq_true] at hc
        exact hc.2
  · intro body w' hget hdec
    have hz : (({} : Ticker).LastPrice).isZero = true := by decide
    simp only [API.Ticker, hget, hdec, hz, Bool.or_true, if_true]
    constructor
    · cases (E.unmarshalErrorMessage body).err <;> simp
    · intro m hm
      rw [hm]

/-- Witness for C1: a ticker body gives a success with nonzero `LastPrice`, the
error envelope of an unknown symbol gives the API error. -/
theorem ticker_success_has_nonzero_last_price_witness :
    (sampleAPI.Ticker sampleEnv "BTCUSD" (Script.ofBodies [bodyTicker])).1.1.LastPrice.isZero
        = false ∧
      (sampleAPI.Ticker sampleEnv "random" (Script.ofBodies [bodyUnknownSymbol])).1
        = ({}, some (errorsNew "API: Unknown symbol")) :=
  ⟨(ticker_success_has_nonzero_last_price sampleEnv sampleAPI "BTCUSD"
      (Script.ofBodies [bodyTicker])).1 (by decide),
    ((ticker_success_has_nonzero_last_price sampleEnv sampleAPI "random"
      (Script.ofBodies [bodyUnknownSymbol])).2 (bytesOfString bodyUnknownSymbol)
      ⟨[], [⟨"GET", APIURL ++ "/v1/ticker/random", [], []⟩], 1⟩ (by rfl) (by rfl)).2
      "Unknown symbol" (by rfl)⟩

/-- C2, as stated, fails: on the body `[]` neither parse succeeds, and `Ticker`
returns the failure of the envelope parse, which is not the failure of the ticker
parse. -/
theorem ticker_double_failure_counterexample :
    (sampleEnv.unmarshalTicker (bytesOfString bodyEmptyArray)).err
        = some (cannotUnmarshal "array" "bitfinex.Ticker") ∧
      (sampleEnv.unmarshalErrorMessage (bytesOfString bodyEmptyArray)).err
        = some (cannotUnmarshal "array" "bitfinex.ErrorMessage") ∧
      (sampleAPI.Ticker sampleEnv "btcusd" (Script.ofBodies [bodyEmptyArray])).1.2
        = some (cannotUnmarshal "array" "bitfinex.ErrorMessage") ∧
      (sampleAPI.Ticker sampleEnv "btcusd" (Script.ofBodies [bodyEmptyArray])).1.2
        ≠ (sampleEnv.unmarshalTicker (bytesOfString bodyEmptyArray)).err := by
  decide

/-- C2, amended: in each of the eight endpoints with an error fallback, when the body
fails to parse as the success shape and the parse as an `ErrorMessage` fails with
`e₂`, the error returned to the caller is `e₂`, the failure of the second parse. -/
theorem double_failure_surfaces_envelope_failure {σ : Type} (E : Env σ) (api : API)
    (body : Body) (e₂ : Error) (henv : (E.unmarshalErrorMessage body).err = some e₂) :
    (∀ symbol w w', api.get E ("/v1/ticker/" ++ E.toLower symbol) w = (.ok body, w') →
      (E.unmarshalTicker body).err ≠ none → (api.Ticker E symbol w).1.2 = some e₂) ∧
    (∀ symbol w w', api.get E ("/v1/stats/" ++ E.toLower symbol) w = (.ok body, w') →
      (E.unmarshalStats body).err ≠ none → (api.Stats E symbol w).1.2 = some e₂) ∧
    (∀ w w', api.post E "/v1/balances" (.plain "/v1/balances" (Itoa (E.unixNano w).1))
        (E.unixNano w).2 = (.ok body, w') →
      (E.unmarshalWalletBalances body).err ≠ none →
      (api.WalletBalances E w).1.2 = some e₂) ∧
    (∀ symbol timestamp limitTrades w w',
      api.post E "/v1/mytrades" (.mytrades "/v1/mytrades" (Itoa (E.unixNano w).1)
        (E.toLower symbol) timestamp limitTrades) (E.unixNano w).2 = (.ok body, w') →
      (E.unmarshalMyTrades body).err ≠ none →
      (api.MyTrades E symbol timestamp limitTrades w).1.2 = some e₂) ∧
    (∀ id w w', api.post E "/v1/offer/cancel"
        (.cancel "/v1/offer/cancel" (Itoa (E.unixNano w).1) id) (E.unixNano w).2
        = (.ok body, w') →
      (E.unmarshalCancelResult body).err ≠ none → (api.CancelOffer E id w).1 = some e₂) ∧
    (∀ w w', api.post E "/v1/credits" (.plain "/v1/credits" (Itoa (E.unixNano w).1))
        (E.unixNano w).2 = (.ok body, w') →
      (E.unmarshalCredits body).err ≠ none → (api.ActiveCredits E w).1.2 = some e₂) ∧
    (∀ w w', api.post E "/v1/offers" (.plain "/v1/offers" (Itoa (E.unixNano w).1))
        (E.unixNano w).2 = (.ok body, w') →
      (E.unmarshalOffers body).err ≠ none → (api.ActiveOffers E w).1.2 = some e₂) ∧
    (∀ currency amount rate period direction w w',
      api.post E "/v1/offer/new" (.newOffer "/v1/offer/new" (Itoa (E.unixNano w).1)
        (E.toUpper currency) amount rate period (E.toLower direction)) (E.unixNano w).2
        = (.ok body, w') →
      (E.unmarshalOffer body).err ≠ none →
      (api.NewOffer E currency amount rate period direction w).1.2 = some e₂) := by
  refine ⟨?_, ?_, ?_, ?_, ?_, ?_, ?_, ?_⟩
  · intro symbol w w' hg hd
    obtain ⟨e₁, he₁⟩ := Option.ne_none_iff_exists'.mp hd
    simp [API.Ticker, hg, he₁, henv]
  · intro symbol w w' hg hd
    obtain ⟨e₁, he₁⟩ := Option.ne_none_iff_exists'.mp hd
    simp [API.Stats, hg, he₁, henv]
  · intro w w' hg hd
    obtain ⟨e₁, he₁⟩ := Option.ne_none_iff_exists'.mp hd
    simp [API.WalletBalances, hg, he₁, henv]
  · intro symbol timestamp limitTrades w w' hg hd
    obtain ⟨e₁, he₁⟩ := Option.ne_none_iff_exists'.mp hd
    simp [API.MyTrades, hg, he₁, henv]
  · intro id w w' hg hd
    obtain ⟨e₁, he₁⟩ := Option.ne_none_iff_exists'.mp hd
    simp [API.CancelOffer, hg, he₁, henv]
  · intro w w' hg hd
    obtain ⟨e₁, he₁⟩ := Option.ne_none_iff_exists'.mp hd
    simp [API.ActiveCredits, hg, he₁, henv]
  · intro w w' hg hd
    obtain ⟨e₁, he₁⟩ := Option.ne_none_iff_exists'.mp hd
    simp [API.ActiveOffers, hg, he₁, henv]
  · intro currency amount rate period direction w w' hg hd
    obtain ⟨e₁, he₁⟩ := Option.ne_none_iff_exists'.mp hd
    simp [API.NewOffer, hg, he₁, henv]

/-- Witness for the amended C2: the body `[]` on `Ticker` (two different failures)
and the empty body on `ActiveOffers`. -/
theorem double_failure_surfaces_envelope_failure_witness :
    (sampleAPI.Ticker sampleEnv "btcusd" (Script.ofBodies [bodyEmptyArray])).1.2
        = some (cannotUnmarshal "array" "bitfinex.ErrorMessage") ∧
      (sampleAPI.ActiveOffers sampleEnv (Script.ofBodies [""])).1.2
        = some (.json "unexpected end of JSON input") :=
  ⟨(double_failure_surfaces_envelope_failure sampleEnv sampleAPI
      (bytesOfString bodyEmptyArray) (cannotUnmarshal "array" "bitfinex.ErrorMessage")
      (by rfl)).1 "btcusd" (Script.ofBodies [bodyEmptyArray])
      ⟨[], [⟨"GET", APIURL ++ "/v1/ticker/btcusd", [], []⟩], 1⟩ (by rfl) (by decide),
    (double_failure_surfaces_envelope_failure sampleEnv sampleAPI
      (bytesOfString "") (.json "unexpected end of JSON input")
      (by rfl)).2.2.2.2.2.2.1 (Script.ofBodies [""])
      (sampleEnv.clientDo _ (sampleEnv.unixNano (Script.ofBodies [""])).2).2
      (by rfl) (by decide)⟩

/-- C3, as stated, fails: the body `{"bids":1,"message":"m"}` does not parse as an
order book or a lend book and does parse as an `ErrorMessage` with message `m`, yet
`Orderbook` and `Lendbook` return the failure of the book parse and not `API: m`. -/
theorem book_ignores_envelope_counterexample :
    (sampleEnv.unmarshalOrderbook (bytesOfString bodyBadBook)).err ≠ none ∧
      (sampleEnv.unmarshalLendbook (bytesOfString bodyBadBook)).err ≠ none ∧
      sampleEnv.unmarshalErrorMessage (bytesOfString bodyBadBook) = ⟨⟨"m"⟩, none⟩ ∧
      (sampleAPI.Orderbook sampleEnv "btcusd" 2 2 1 (Script.ofBodies [bodyBadBook])).1.2
        = some (cannotUnmarshal "number" "[]bitfinex.OrderbookOffer") ∧
      (sampleAPI.Orderbook sampleEnv "btcusd" 2 2 1 (Script.ofBodies [bodyBadBook])).1.2
        ≠ some (errorsNew ("API: " ++ "m")) ∧
      (sampleAPI.Lendbook sampleEnv "usd" 2 2 (Script.ofBodies [bodyBadBook])).1.2
        = some (cannotUnmarshal "number" "[]bitfinex.LendbookOffer") ∧
      (sampleAPI.Lendbook sampleEnv "usd" 2 2 (Script.ofBodies [bodyBadBook])).1.2
        ≠ some (errorsNew ("API: " ++ "m")) := by
  decide

/-- C3, amended: `Orderbook` and `Lendbook` have no error fallback.  For every body
that fails to parse as the book with failure `e`, the endpoint returns `e` together
with whatever the parse left in the book, whatever the body would give as an
`ErrorMessage`. -/
theorem book_parse_failure_is_returned {σ : Type} (E : Env σ) (api : API) (body : Body)
    (e : Error) :
    (∀ symbol limitBids limitAsks group w w',
      api.get E ("/v1/book/" ++ E.toLower symbol ++ "?limit_bids=" ++ Itoa limitBids ++
        "&limit_asks=" ++ Itoa limitAsks ++ "&group=" ++ Itoa group) w = (.ok body, w') →
      (E.unmarshalOrderbook body).err = some e →
      api.Orderbook E symbol limitBids limitAsks group w
        = (((E.unmarshalOrderbook body).value, some e), w')) ∧
    (∀ currency limitBids limitAsks w w',
      api.get E ("/v1/lendbook/" ++ E.toLower currency ++ "?limit_bids=" ++ Itoa limitBids ++
        "&limit_asks=" ++ Itoa limitAsks) w = (.ok body, w') →
      (E.unmarshalLendbook body).err = some e →
      api.Lendbook E currency limitBids limitAsks w
        = (((E.unmarshalLendbook body).value, some e), w')) := by
  constructor
  · intro symbol limitBids limitAsks group w w' hg hd
    simp only [API.Orderbook, hg, hd]
  · intro currency limitBids limitAsks w w' hg hd
    simp only [API.Lendbook, hg, hd]

/-- Witness for the amended C3, on the body `{"bids":1,"message":"m"}`. -/
theorem book_parse_failure_is_returned_witness :
    sampleAPI.Orderbook sampleEnv "btcusd" 2 2 1 (Script.ofBodies [bodyBadBook])
        = (({}, some (cannotUnmarshal "number" "[]bitfinex.OrderbookOffer")),
          ⟨[], [⟨"GET", APIURL ++ "/v1/book/btcusd?limit_bids=2&limit_asks=2&group=1", [],
            []⟩], 1⟩) ∧
      sampleAPI.Lendbook sampleEnv "usd" 2 2 (Script.ofBodies [bodyBadBook])
        = (({}, some (cannotUnmarshal "number" "[]bitfinex.LendbookOffer")),
          ⟨[], [⟨"GET", APIURL ++ "/v1/lendbook/usd?limit_bids=2&limit_asks=2", [], []⟩],
            1⟩) :=
  ⟨(book_parse_failure_is_returned sampleEnv sampleAPI (bytesOfString bodyBadBook)
      (cannotUnmarshal "number" "[]bitfinex.OrderbookOffer")).1 "btcusd" 2 2 1
      (Script.ofBodies [bodyBadBook]) _ (by rfl) (by rfl),
    (book_parse_failure_is_returned sampleEnv sampleAPI (bytesOfString bodyBadBook)
      (cannotUnmarshal "number" "[]bitfinex.LendbookOffer")).2 "usd" 2 2
      (Script.ofBodies [bodyBadBook]) _ (by rfl) (by rfl)⟩

/-- C4: when the ticker parse of the body fails or leaves a zero `LastPrice`, and the
body parses as an `ErrorMessage` with message `m`, `Ticker` returns the error made by
`errors.New` from `"API: "` followed by `m` unchanged; its text is exactly that
string. -/
theorem ticker_api_error_text {σ : Type} (E : Env σ) (api : API) (symbol : String)
    (w w' : σ) (body : Body) (m : String)
    (hget : api.get E ("/v1/ticker/" ++ E.toLower symbol) w = (.ok body, w'))
    (hbad : (E.unmarshalTicker body).err ≠ none ∨
      (E.unmarshalTicker body).value.LastPrice.isZero = true)
    (henv : E.unmarshalErrorMessage body = ⟨⟨m⟩, none⟩) :
    (api.Ticker E symbol w).1.2 = some (errorsNew ("API: " ++ m)) ∧
      ∀ err, (api.Ticker E symbol w).1.2 = some err → err.text = "API: " ++ m := by
  have key : (api.Ticker E symbol w).1.2 = some (errorsNew ("API: " ++ m)) := by
    have hc : ((E.unmarshalTicker body).err.isSome ||
        (E.unmarshalTicker body).value.LastPrice.isZero) = true := by
      rcases hbad with h | h
      · obtain ⟨e₁, he₁⟩ := Option.ne_none_iff_exists'.mp h
        simp [he₁]
      · simp [h]
    simp only [API.Ticker, hget, hc, if_true, henv]
  refine ⟨key, ?_⟩
  intro err herr
  rw [key] at herr
  cases herr
  rfl

/-- Witness for C4: the envelope of an unknown symbol (parsed, `LastPrice` zero). -/
theorem ticker_api_error_text_witness :
    (sampleAPI.Ticker sampleEnv "random" (Script.ofBodies [bodyUnknownSymbol])).1.2
      = some (errorsNew ("API: " ++ "Unknown symbol")) :=
  (ticker_api_error_text sampleEnv sampleAPI "random" (Script.ofBodies [bodyUnknownSymbol])
    ⟨[], [⟨"GET", APIURL ++ "/v1/ticker/random", [], []⟩], 1⟩
    (bytesOfString bodyUnknownSymbol) "Unknown symbol" (by rfl) (Or.inr (by decide))
    (by rfl)).1

/-- C5, as stated, fails: with no bid limit and the ask limit `-1` (no limit greater
than 0 is requested) the body `{}`, which parses as a lend book with no asks, is
rejected with the lend-book error. -/
theorem lendbook_negative_limit_counterexample :
    sampleEnv.unmarshalLendbook (bytesOfString bodyEmptyObject) = ⟨{}, none⟩ ∧
      ¬ ((0 : Int) < 0) ∧ ¬ ((0 : Int) < -1) ∧
      (sampleAPI.Lendbook sampleEnv "usd" 0 (-1) (Script.ofBodies [bodyEmptyObject])).1.2
        = some (errorsNew "API: Lendbook empty, likely bad currency specified") := by
  decide

/-- C5, amended: a successfully parsed lend book is rejected exactly when a limit
different from 0 was requested for a side and that side of the parsed book is empty;
the error is then `API: Lendbook empty, likely bad currency specified` and the parsed
book is returned with it; in every other case `Lendbook` returns no error. -/
theorem lendbook_plausibility {σ : Type} (E : Env σ) (api : API) (currency : String)
    (limitBids limitAsks : Int) (w w' : σ) (body : Body) (book : Lendbook)
    (hget : api.get E ("/v1/lendbook/" ++ E.toLower currency ++ "?limit_bids=" ++
      Itoa limitBids ++ "&limit_asks=" ++ Itoa limitAsks) w = (.ok body, w'))
    (hdec : E.unmarshalLendbook body = ⟨book, none⟩) :
    ((api.Lendbook E currency limitBids limitAsks w).1.2 ≠ none ↔
      (limitAsks ≠ 0 ∧ book.Asks = []) ∨ (limitBids ≠ 0 ∧ book.Bids = [])) ∧
    ((api.Lendbook E currency limitBids limitAsks w).1.2 ≠ none →
      (api.Lendbook E currency limitBids limitAsks w).1
        = (book, some (errorsNew "API: Lendbook empty, likely bad currency specified"))) := by
  by_cases hc : (limitAsks ≠ 0 ∧ book.Asks.length = 0) ∨
      (limitBids ≠ 0 ∧ book.Bids.length = 0)
  · have hr : (api.Lendbook E currency limitBids limitAsks w).1
        = (book, some (errorsNew "API: Lendbook empty, likely bad currency specified")) := by
      simp only [API.Lendbook, hget, hdec, if_pos hc]
    refine ⟨?_, fun _ => hr⟩
    rw [hr]
    simpa [List.length_eq_zero] using hc
  · have hr : (api.Lendbook E currency limitBids limitAsks w).1.2 = none := by
      simp only [API.Lendbook, hget, hdec, if_neg hc]
    refine ⟨?_, fun h => absurd hr h⟩
    rw [hr]
    simpa [List.length_eq_zero] using hc

/-- Witness for the amended C5: the error envelope of a bad currency parses as an
empty lend book and is rejected when two bids and two asks were requested. -/
theorem lendbook_plausibility_witness :
    (sampleAPI.Lendbook sampleEnv "random" 2 2 (Script.ofBodies [bodyUnknownSymbol])).1
      = ({}, some (errorsNew "API: Lendbook empty, likely bad currency specified")) :=
  (lendbook_plausibility sampleEnv sampleAPI "random" 2 2
    (Script.ofBodies [bodyUnknownSymbol])
    ⟨[], [⟨"GET", APIURL ++ "/v1/lendbook/random?limit_bids=2&limit_asks=2", [], []⟩], 1⟩
    (bytesOfString bodyUnknownSymbol) {} (by rfl) (by rfl)).2 (by decide)

/-- C6: given the body that `post` returned for the cancel request of offer `id`,
`CancelOffer` returns no error if and only if the body parses as the cancel result,
the returned id equals `id` and the returned `is_cancelled` flag is false; when it
parses with the requested id and the flag true, the error is
`API: Offer already cancelled`. -/
theorem cancelOffer_success_iff {σ : Type} (E : Env σ) (api : API) (id : Int) (w w' : σ)
    (body : Body)
    (hpost : api.post E "/v1/offer/cancel"
      (.cancel "/v1/offer/cancel" (Itoa (E.unixNano w).1) id) (E.unixNano w).2
      = (.ok body, w')) :
    ((api.CancelOffer E id w).1 = none ↔
      (E.unmarshalCancelResult body).err = none ∧
        (E.unmarshalCancelResult body).value.ID = id ∧
        (E.unmarshalCancelResult body).value.Cancelled = false) ∧
    ((E.unmarshalCancelResult body).err = none →
      (E.unmarshalCancelResult body).value.ID = id →
      (E.unmarshalCancelResult body).value.Cancelled = true →
      (api.CancelOffer E id w).1 = some (errorsNew "API: Offer already cancelled")) := by
  constructor
  · simp only [API.CancelOffer, hpost]
    cases herr : (E.unmarshalCancelResult body).err with
    | some e₁ => cases (E.unmarshalErrorMessage body).err <;> simp
    | none =>
      by_cases hid : (E.unmarshalCancelResult body).value.ID = id
      · cases hcan : (E.unmarshalCancelResult body).value.Cancelled <;> simp [hid]
      · cases (E.unmarshalErrorMessage body).err <;> simp [hid]
  · intro herr hid hcan
    simp [API.CancelOffer, hpost, herr, hid, hcan]

/-- Witness for C6: cancelling offer 7 with the reply `{"id":7,"is_cancelled":false}`
succeeds, and with the reply `{"id":7,"is_cancelled":true}` it is reported as already
cancelled. -/
theorem cancelOffer_success_iff_witness :
    (sampleAPI.CancelOffer sampleEnv 7 (Script.ofBodies [bodyCancel 7 false])).1 = none ∧
      (sampleAPI.CancelOffer sampleEnv 7 (Script.ofBodies [bodyCancel 7 true])).1
        = some (errorsNew "API: Offer already cancelled") :=
  ⟨(cancelOffer_success_iff sampleEnv sampleAPI 7 (Script.ofBodies [bodyCancel 7 false])
      (sampleEnv.clientDo _ (sampleEnv.unixNano (Script.ofBodies [bodyCancel 7 false])).2).2
      (bytesOfString (bodyCancel 7 false)) (by rfl)).1.mpr (by decide),
    (cancelOffer_success_iff sampleEnv sampleAPI 7 (Script.ofBodies [bodyCancel 7 true])
      (sampleEnv.clientDo _ (sampleEnv.unixNano (Script.ofBodies [bodyCancel 7 true])).2).2
      (bytesOfString (bodyCancel 7 true)) (by rfl)).2 (by decide) (by decide) (by decide)⟩

/-! ## Wallet balances: the keyed map -/

/-- Reading a key after an assignment. -/
theorem GoMap.get?_assign {κ ν : Type} [DecidableEq κ] (m : GoMap κ ν) (k k' : κ) (v : ν) :
    (m.assign k v).get? k' = if k = k' then some v else m.get? k' := by
  induction m with
  | nil => simp [GoMap.assign, GoMap.get?]
  | cons p rest ih =>
    obtain ⟨k₀, v₀⟩ := p
    by_cases h₀ : k₀ = k
    · subst h₀
      simp only [GoMap.assign, if_true, GoMap.get?]
      split <;> rfl
    · by_cases h₁ : k₀ = k'
      · subst h₁
        have : ¬ k = k₀ := fun h => h₀ h.symm
        simp [GoMap.assign, GoMap.get?, h₀, this]
      · simp [GoMap.assign, GoMap.get?, h₀, h₁, ih]

/-- The keys after an assignment. -/
theorem GoMap.mem_keys_assign {κ ν : Type} [DecidableEq κ] (m : GoMap κ ν) (k k' : κ)
    (v : ν) : k' ∈ (m.assign k v).keys ↔ k' = k ∨ k' ∈ m.keys := by
  induction m with
  | nil => simp [GoMap.assign, GoMap.keys]
  | cons p rest ih =>
    obtain ⟨k₀, v₀⟩ := p
    by_cases h₀ : k₀ = k
    · subst h₀
      simp [GoMap.assign, GoMap.keys]
    · simp only [GoMap.keys] at ih
      simp only [GoMap.assign, h₀, if_false, GoMap.keys, List.map_cons, List.mem_cons, ih]
      tauto

/-- An assignment keeps the keys pairwise distinct. -/
theorem GoMap.nodup_keys_assign {κ ν : Type} [DecidableEq κ] (m : GoMap κ ν) (k : κ)
    (v : ν) (h : m.keys.Nodup) : (m.assign k v).keys.Nodup := by
  induction m with
  | nil => simp [GoMap.assign, GoMap.keys]
  | cons p rest ih =>
    obtain ⟨k₀, v₀⟩ := p
    simp only [GoMap.keys, List.map_cons, List.nodup_cons] at h
    by_cases h₀ : k₀ = k
    · subst h₀
      simpa [GoMap.assign, GoMap.keys] using h
    · have hmem := GoMap.mem_keys_assign rest k k₀ v
      simp only [GoMap.keys] at hmem ih
      simp only [GoMap.assign, h₀, if_false, GoMap.keys, List.map_cons, List.nodup_cons]
      refine ⟨?_, ih h.2⟩
      rw [hmem]
      rintro (h' | h')
      · exact h₀ h'
      · exact h.1 h'

/-- An entry of a map is what reading its key gives. -/
theorem GoMap.get?_of_mem {κ ν : Type} [DecidableEq κ] (m : GoMap κ ν) (h : m.keys.Nodup)
    (k : κ) (v : ν) (hmem : (k, v) ∈ m) : m.get? k = some v := by
  induction m with
  | nil => simp at hmem
  | cons p rest ih =>
    obtain ⟨k₀, v₀⟩ := p
    simp only [GoMap.keys, List.map_cons, List.nodup_cons] at h
    rcases List.mem_cons.mp hmem with heq | hrest
    · cases heq
      simp [GoMap.get?]
    · have hne : ¬ k₀ = k := by
        intro hk
        subst hk
        exact h.1 (List.mem_map.mpr ⟨(k₀, v), hrest, rfl⟩)
      simp only [GoMap.get?, hne, if_false]
      exact ih h.2 hrest

/-- The loop of `WalletBalances` started from a map `m`: its keys stay distinct, they
are the old keys and the keys of the sequence, and reading a key gives the last
element of the sequence with that key, or the old value when there is none. -/
theorem walletLoop_spec {κ ν : Type} [DecidableEq κ] (key : ν → κ) (seq : List ν)
    (m : GoMap κ ν) (h : m.keys.Nodup) :
    (seq.foldl (fun wallet b => wallet.assign (key b) b) m).keys.Nodup ∧
    (∀ k, k ∈ (seq.foldl (fun wallet b => wallet.assign (key b) b) m).keys ↔
      k ∈ m.keys ∨ ∃ b ∈ seq, key b = k) ∧
    (∀ k, (seq.foldl (fun wallet b => wallet.assign (key b) b) m).get? k =
      (seq.reverse.find? (fun b => decide (key b = k))).or (m.get? k)) := by
  induction seq generalizing m with
  | nil => simpa using h
  | cons b rest ih =>
    obtain ⟨h₁, h₂, h₃⟩ := ih (m.assign (key b) b) (GoMap.nodup_keys_assign m (key b) b h)
    refine ⟨h₁, ?_, ?_⟩
    · intro k
      rw [List.foldl_cons, h₂ k, GoMap.mem_keys_assign]
      simp only [List.mem_cons, exists_eq_or_imp]
      constructor
      · rintro ((h' | h') | h')
        · exact Or.inr (Or.inl h'.symm)
        · exact Or.inl h'
        · exact Or.inr (Or.inr h')
      · rintro (h' | h' | h')
        · exact Or.inl (Or.inr h')
        · exact Or.inl (Or.inl h'.symm)
        · exact Or.inr h'
    · intro k
      rw [List.foldl_cons, h₃ k, GoMap.get?_assign, List.reverse_cons, List.find?_append]
      cases hf : List.find? (fun b => decide (key b = k)) rest.reverse with
      | some x => simp
      | none =>
        by_cases hk : key b = k
        · simp [hk]
        · simp [hk]

/-- C7: when the body decodes without error as the sequence `seq`, the mapping that
`WalletBalances` returns has pairwise distinct keys, its keys are exactly the
`(Type, Currency)` pairs occurring in `seq` (so it has one entry per distinct pair),
the value read under a key is the last element of `seq` with that `Type` and
`Currency`, and the `Type` and `Currency` of every stored value equal its key. -/
theorem walletBalances_last_wins {σ : Type} (E : Env σ) (api : API) (w w' : σ)
    (body : Body) (seq : List WalletBalance)
    (hpost : api.post E "/v1/balances" (.plain "/v1/balances" (Itoa (E.unixNano w).1))
      (E.unixNano w).2 = (.ok body, w'))
    (hdec : E.unmarshalWalletBalances body = ⟨seq, none⟩) :
    (api.WalletBalances E w).1.2 = none ∧
    (GoMap.keys (api.WalletBalances E w).1.1).Nodup ∧
    (∀ k : WalletKey, k ∈ GoMap.keys (api.WalletBalances E w).1.1 ↔
      ∃ b ∈ seq, (⟨b.Type_, b.Currency⟩ : WalletKey) = k) ∧
    (api.WalletBalances E w).1.1.length
      = (seq.map (fun b => (⟨b.Type_, b.Currency⟩ : WalletKey))).dedup.length ∧
    (∀ k : WalletKey, GoMap.get? (api.WalletBalances E w).1.1 k =
      seq.reverse.find? (fun b => decide ((⟨b.Type_, b.Currency⟩ : WalletKey) = k))) ∧
    (∀ k v, (k, v) ∈ (api.WalletBalances E w).1.1 →
      v.Type_ = k.Type_ ∧ v.Currency = k.Currency) := by
  have hnil : (GoMap.keys ([] : GoMap WalletKey WalletBalance)).Nodup := by
    simp [GoMap.keys]
  obtain ⟨h₁, h₂, h₃⟩ :=
    walletLoop_spec (fun b : WalletBalance => (⟨b.Type_, b.Currency⟩ : WalletKey)) seq [] hnil
  have hr : (api.WalletBalances E w).1 =
      (seq.foldl (fun wallet b => GoMap.assign wallet ⟨b.Type_, b.Currency⟩ b) [], none) := by
    simp only [API.WalletBalances, hpost, hdec]
  rw [hr]
  refine ⟨rfl, h₁, ?_, ?_, ?_, ?_⟩
  · intro k
    rw [h₂ k]
    simp [GoMap.keys]
  · have hperm : List.Perm
        (GoMap.keys (seq.foldl (fun wallet b => GoMap.assign wallet ⟨b.Type_, b.Currency⟩ b)
          ([] : GoMap WalletKey WalletBalance)))
        (seq.map (fun b => (⟨b.Type_, b.Currency⟩ : WalletKey))).dedup := by
      rw [List.perm_ext_iff_of_nodup h₁ (List.nodup_dedup _)]
      intro k
      rw [h₂ k, List.mem_dedup, List.mem_map]
      simp [GoMap.keys]
    have hlen := hperm.length_eq
    simpa [GoMap.keys] using hlen
  · intro k
    rw [h₃ k]
    simp [GoMap.get?, Option.or_none]
  · intro k v hmem
    have hget := GoMap.get?_of_mem _ h₁ k v hmem
    rw [h₃ k] at hget
    simp only [GoMap.get?, Option.or_none] at hget
    have hp := List.find?_some hget
    simp only [decide_eq_true_eq] at hp
    subst hp
    exact ⟨rfl, rfl⟩

/-- Witness for C7: three balances, the first and the third in the same wallet and
currency, give a map of two entries whose `deposit`/`usd` entry is the third. -/
theorem walletBalances_last_wins_witness :
    (sampleAPI.WalletBalances sampleEnv (Script.ofBodies [bodyBalances])).1.1.length = 2 ∧
      GoMap.get? (sampleAPI.WalletBalances sampleEnv (Script.ofBodies [bodyBalances])).1.1
        ⟨"deposit", "usd"⟩
        = some { Type_ := "deposit", Currency := "usd", Amount := ⟨0x4000000000000000⟩ } :=
  have h := walletBalances_last_wins sampleEnv sampleAPI (Script.ofBodies [bodyBalances])
    (sampleEnv.clientDo _ (sampleEnv.unixNano (Script.ofBodies [bodyBalances])).2).2
    (bytesOfString bodyBalances) sampleBalances (by rfl) (by rfl)
  ⟨h.2.2.2.1.trans (by decide), (h.2.2.2.2.1 ⟨"deposit", "usd"⟩).trans (by decide)⟩

/-! ## The signer inside `post` -/

/-- The value of a character of the alphabet is its index. -/
theorem base64Value_base64Char (n : Nat) (h : n < 64) :
    base64Value (base64Char n) = some n := by
  have key : ∀ i : Fin 64, base64Value (base64Char i.val) = some i.val := by decide
  exact key ⟨n, h⟩

/-- No character of the alphabet is the padding character. -/
theorem base64Char_ne_pad (n : Nat) : base64Char n ≠ '=' := by
  by_cases h : n < 64
  · have key : ∀ i : Fin 64, base64Char i.val ≠ '=' := by decide
    exact key ⟨n, h⟩
  · have hlen : encodeStd.length ≤ n := by
      have : encodeStd.length = 64 := by decide
      omega
    have hnone : encodeStd[n]? = none := List.getElem?_eq_none hlen
    simp [base64Char, List.getD, hnone]

/-- Decoding what `base64.StdEncoding` wrote gives the bytes back. -/
theorem base64DecodeChars_base64Chars (src : List Byte) :
    base64DecodeChars (base64Chars src) = some src := by
  induction src using base64Chars.induct with
  | case1 a b c rest ih =>
    have ha := a.isLt
    have hb := b.isLt
    have hc := c.isLt
    have h1 : (base64Char (b.val % 16 * 4 + c.val / 64) = '=') = False :=
      eq_false (base64Char_ne_pad _)
    have h2 : (base64Char (c.val % 64) = '=') = False := eq_false (base64Char_ne_pad _)
    simp only [base64Chars, base64DecodeChars, h1, h2, false_and, if_false, ih,
      base64Value_base64Char (a.val / 4) (by omega),
      base64Value_base64Char (a.val % 4 * 16 + b.val / 16) (by omega),
      base64Value_base64Char (b.val % 16 * 4 + c.val / 64) (by omega),
      base64Value_base64Char (c.val % 64) (by omega)]
    have e1 : byte (a.val / 4 * 4 + (a.val % 4 * 16 + b.val / 16) / 16) = a :=
      Fin.ext (by simp only [byte]; omega)
    have e2 : byte ((a.val % 4 * 16 + b.val / 16) % 16 * 16 +
        (b.val % 16 * 4 + c.val / 64) / 4) = b :=
      Fin.ext (by simp only [byte]; omega)
    have e3 : byte ((b.val % 16 * 4 + c.val / 64) % 4 * 64 + c.val % 64) = c :=
      Fin.ext (by simp only [byte]; omega)
    rw [e1, e2, e3]
  | case2 a b =>
    have ha := a.isLt
    have hb := b.isLt
    have h1 : (base64Char (b.val % 16 * 4) = '=') = False := eq_false (base64Char_ne_pad _)
    have hz : (b.val % 16 * 4) % 4 = 0 := by omega
    simp only [base64Chars, base64DecodeChars, h1, false_and, if_false, and_self, if_true, hz,
      base64Value_base64Char (a.val / 4) (by omega),
      base64Value_base64Char (a.val % 4 * 16 + b.val / 16) (by omega),
      base64Value_base64Char (b.val % 16 * 4) (by omega)]
    have e1 : byte (a.val / 4 * 4 + (a.val % 4 * 16 + b.val / 16) / 16) = a :=
      Fin.ext (by simp only [byte]; omega)
    have e2 : byte ((a.val % 4 * 16 + b.val / 16) % 16 * 16 + b.val % 16 * 4 / 4) = b :=
      Fin.ext (by simp only [byte]; omega)
    rw [e1, e2]
  | case3 a =>
    have ha := a.isLt
    have hz : (a.val % 4 * 16) % 16 = 0 := by omega
    simp only [base64Chars, base64DecodeChars, and_self, if_true, hz,
      base64Value_base64Char (a.val / 4) (by omega),
      base64Value_base64Char (a.val % 4 * 16) (by omega)]
    have e1 : byte (a.val / 4 * 4 + a.val % 4 * 16 / 16) = a :=
      Fin.ext (by simp only [byte]; omega)
    rw [e1]
  | case4 => rfl

/-- C8: when the payload serialises to the JSON bytes `j` (and `http.NewRequest`
accepts the URL), `post` performs exactly one request, the same whatever the state
of the world: a POST whose body is `j` and whose headers are, in this order,
`X-BFX-APIKEY` with the key as given, `X-BFX-PAYLOAD` with the base64 text of `j`,
and `X-BFX-SIGNATURE` with the hex text of the HMAC-SHA384, keyed by the bytes of the
secret, of the base64 text (not of `j`); the payload header decodes back to the
body. -/
theorem post_signed_request {σ : Type} (E : Env σ) (api : API) (url : String)
    (payload : Payload) (j : List Byte) (hj : E.marshal payload = .ok j)
    (hreq : E.newRequestError "POST" (APIURL ++ url) = none) :
    (∀ w : σ, api.post E url payload w =
      E.clientDo
        ⟨"POST", APIURL ++ url,
          [("X-BFX-APIKEY", api.APIKey),
            ("X-BFX-PAYLOAD", base64Encode j),
            ("X-BFX-SIGNATURE",
              hexEncode (hmacSHA384 (bytesOfString api.APISecret)
                (bytesOfString (base64Encode j))))],
          j⟩ w) ∧
    base64Decode (base64Encode j) = some j := by
  constructor
  · intro w
    simp only [API.post, hj, hreq, List.nil_append, List.cons_append]
  · exact base64DecodeChars_base64Chars j

set_option maxRecDepth 100000 in
/-- Witness for C8: the balances request with nonce 1 under the key `key` and the
secret `secret`; the three header values are written out. -/
theorem post_signed_request_witness :
    sampleAPI.post sampleEnv "/v1/balances" (.plain "/v1/balances" "1")
        (Script.ofBodies [bodyEmptyArray])
      = sampleEnv.clientDo
        ⟨"POST", "https://api.bitfinex.com/v1/balances",
          [("X-BFX-APIKEY", "key"),
            ("X-BFX-PAYLOAD", "eyJyZXF1ZXN0IjoiL3YxL2JhbGFuY2VzIiwibm9uY2UiOiIxIn0="),
            ("X-BFX-SIGNATURE", "a063c2d3b72b0b6de15180b04c00d90d30d96a4d4ba8dd68671921b412f7196a" ++
              "8e6905182e16c4e64c8fb5082a27ad0a")],
          bytesOfString payloadBalances⟩ (Script.ofBodies [bodyEmptyArray]) ∧
      base64Decode "eyJyZXF1ZXN0IjoiL3YxL2JhbGFuY2VzIiwibm9uY2UiOiIxIn0="
        = some (bytesOfString payloadBalances) := by
  have h := post_signed_request sampleEnv sampleAPI "/v1/balances"
    (.plain "/v1/balances" "1") (bytesOfString payloadBalances) (by rfl) (by rfl)
  have e₁ : base64Encode (bytesOfString payloadBalances)
      = "eyJyZXF1ZXN0IjoiL3YxL2JhbGFuY2VzIiwibm9uY2UiOiIxIn0=" := by decide
  have e₂ : hexEncode (hmacSHA384 (bytesOfString sampleAPI.APISecret)
      (bytesOfString "eyJyZXF1ZXN0IjoiL3YxL2JhbGFuY2VzIiwibm9uY2UiOiIxIn0="))
      = "a063c2d3b72b0b6de15180b04c00d90d30d96a4d4ba8dd68671921b412f7196a" ++
        "8e6905182e16c4e64c8fb5082a27ad0a" := by decide
  rw [e₁, e₂] at h
  exact ⟨h.1 _, h.2⟩

/-! ## Composite helpers -/

/-- The loop of `CancelActiveOffers` runs through a prefix of successful cancels. -/
theorem cancelEach_prefix {σ : Type} (E : Env σ) (api : API) (pre rest : Offers) (w : σ)
    (hpre : ∀ pre₁ o₁ post₁, pre = pre₁ ++ o₁ :: post₁ →
      (api.CancelOffer E o₁.ID (worldAfterCancels E api (pre₁.map (fun o => o.ID)) w)).1
        = none) :
    api.cancelEach E (pre ++ rest) w
      = api.cancelEach E rest (worldAfterCancels E api (pre.map (fun o => o.ID)) w) := by
  induction pre generalizing w with
  | nil => rfl
  | cons p pre' ih =>
    have hp : (api.CancelOffer E p.ID w).1 = none := hpre [] p pre' rfl
    have hstep : api.cancelEach E (p :: pre' ++ rest) w
        = api.cancelEach E (pre' ++ rest) (api.CancelOffer E p.ID w).2 := by
      rcases hc : api.CancelOffer E p.ID w with ⟨r, w₂⟩
      rw [hc] at hp
      simp only at hp
      subst hp
      show api.cancelEach E (p :: (pre' ++ rest)) w = _
      simp only [API.cancelEach, hc]
    rw [hstep, ih (api.CancelOffer E p.ID w).2]
    · rfl
    · intro pre₁ o₁ post₁ hdec
      have := hpre (p :: pre₁) o₁ post₁ (by rw [hdec]; rfl)
      simpa [worldAfterCancels] using this

/-- The loop of `CancelActiveOffers` calls `CancelOffer` for a prefix of the list and
for nothing else; the prefix is the whole list when no error is returned. -/
theorem cancelEach_world {σ : Type} (E : Env σ) (api : API) (offers : Offers) (w : σ) :
    ∃ n, n ≤ offers.length ∧
      (api.cancelEach E offers w).2
        = worldAfterCancels E api ((offers.take n).map (fun o => o.ID)) w ∧
      ((api.cancelEach E offers w).1 = none → n = offers.length) := by
  induction offers generalizing w with
  | nil => exact ⟨0, le_refl _, rfl, fun _ => rfl⟩
  | cons o rest ih =>
    rcases hc : api.CancelOffer E o.ID w with ⟨r, w₂⟩
    cases r with
    | some e =>
      refine ⟨1, by simp, ?_, ?_⟩
      · simp [API.cancelEach, hc, worldAfterCancels]
      · simp [API.cancelEach, hc]
    | none =>
      obtain ⟨n, hn, hw, hall⟩ := ih w₂
      refine ⟨n + 1, by simpa using hn, ?_, ?_⟩
      · simp only [API.cancelEach, hc, hw, worldAfterCancels, List.take_succ_cons,
          List.map_cons, List.foldl_cons]
      · intro h
        simp only [API.cancelEach, hc] at h
        simp [hall h]

/-- The loop of `CancelActiveOffersByCurrency` is the loop of `CancelActiveOffers` on
the offers it does not skip. -/
theorem cancelEachByCurrency_eq_filter {σ : Type} (E : Env σ) (api : API)
    (currency : String) (offers : Offers) (w : σ) :
    api.cancelEachByCurrency E currency offers w
      = api.cancelEach E (offers.filter (fun o => decide (E.toLower o.Currency = currency)))
        w := by
  induction offers generalizing w with
  | nil => rfl
  | cons o rest ih =>
    by_cases h : E.toLower o.Currency = currency
    · simp only [API.cancelEachByCurrency, h, if_true, decide_True, List.filter_cons_of_pos,
        API.cancelEach]
      rcases api.CancelOffer E o.ID w with ⟨r, w₂⟩
      cases r with
      | some e => rfl
      | none => exact ih w₂
    · simp only [API.cancelEachByCurrency, h, if_false, decide_False, Bool.false_eq_true,
        not_false_eq_true, List.filter_cons_of_neg]
      exact ih w

/-- Restricting the listing does not change the cancel loop. -/
theorem cancelEach_listingOnly {σ : Type} (E : Env σ) (api : API) (keep : Offer → Bool)
    (offers : Offers) (w : σ) :
    api.cancelEach (E.listingOnly keep) offers w = api.cancelEach E offers w := by
  induction offers generalizing w with
  | nil => rfl
  | cons o rest ih =>
    have hc : api.CancelOffer (E.listingOnly keep) o.ID w = api.CancelOffer E o.ID w := rfl
    simp only [API.cancelEach, hc]
    rcases api.CancelOffer E o.ID w with ⟨r, w₂⟩
    cases r with
    | some e => rfl
    | none => exact ih w₂

/-- With a restricted listing `ActiveOffers` returns the kept offers of what it
returns otherwise, with the same error and the same next state. -/
theorem activeOffers_listingOnly {σ : Type} (E : Env σ) (api : API) (keep : Offer → Bool)
    (w : σ) :
    api.ActiveOffers (E.listingOnly keep) w
      = (((api.ActiveOffers E w).1.1.filter keep, (api.ActiveOffers E w).1.2),
        (api.ActiveOffers E w).2) := by
  have hp : ∀ url payload w₀, api.post (E.listingOnly keep) url payload w₀
      = api.post E url payload w₀ := fun _ _ _ => rfl
  have hn : (E.listingOnly keep).unixNano w = E.unixNano w := rfl
  have hm : ∀ body, (E.listingOnly keep).unmarshalErrorMessage body
      = E.unmarshalErrorMessage body := fun _ => rfl
  have ho : ∀ body, (E.listingOnly keep).unmarshalOffers body
      = ⟨(E.unmarshalOffers body).value.filter keep, (E.unmarshalOffers body).err⟩ :=
    fun _ => rfl
  simp only [API.ActiveOffers, hn, hp, hm, ho]
  rcases api.post E "/v1/offers" (Payload.plain "/v1/offers" (Itoa (E.unixNano w).1))
    (E.unixNano w).2 with ⟨r, w₁⟩
  cases r with
  | error e => simp
  | ok body =>
    simp only
    cases (E.unmarshalOffers body).err with
    | none => simp
    | some e₁ => cases (E.unmarshalErrorMessage body).err <;> simp

/-- C9: if fetching the active offers fails, `CancelActiveOffers` returns that
failure in the state the fetch left (no cancel is issued).  Otherwise it calls
`CancelOffer` for the listed ids in listed order: when the cancels of a prefix `pre`
of the list succeed and the cancel of the next offer `o` fails with `e`, it returns
`e` in the state reached by exactly the cancels of `pre` and `o` (nothing is issued
for the later offers, nothing is undone); when every cancel succeeds it returns no
error in the state reached by the cancels of the whole list, each offer once. -/
theorem cancelActiveOffers_stops_at_first_failure {σ : Type} (E : Env σ) (api : API)
    (w : σ) :
    (∀ e, (api.ActiveOffers E w).1.2 = some e →
      api.CancelActiveOffers E w = (some e, (api.ActiveOffers E w).2)) ∧
    ((api.ActiveOffers E w).1.2 = none →
      (∀ pre o post e, (api.ActiveOffers E w).1.1 = pre ++ o :: post →
        (∀ pre₁ o₁ post₁, pre = pre₁ ++ o₁ :: post₁ →
          (api.CancelOffer E o₁.ID (worldAfterCancels E api (pre₁.map (fun o => o.ID))
            (api.ActiveOffers E w).2)).1 = none) →
        (api.CancelOffer E o.ID (worldAfterCancels E api (pre.map (fun o => o.ID))
          (api.ActiveOffers E w).2)).1 = some e →
        api.CancelActiveOffers E w
          = (some e, worldAfterCancels E api ((pre ++ [o]).map (fun o => o.ID))
            (api.ActiveOffers E w).2)) ∧
      ((∀ pre₁ o₁ post₁, (api.ActiveOffers E w).1.1 = pre₁ ++ o₁ :: post₁ →
          (api.CancelOffer E o₁.ID (worldAfterCancels E api (pre₁.map (fun o => o.ID))
            (api.ActiveOffers E w).2)).1 = none) →
        api.CancelActiveOffers E w
          = (none, worldAfterCancels E api ((api.ActiveOffers E w).1.1.map (fun o => o.ID))
            (api.ActiveOffers E w).2))) := by
  rcases hfetch : api.ActiveOffers E w with ⟨⟨offers, err⟩, w₁⟩
  refine ⟨?_, ?_⟩
  · intro e he
    simp only at he
    subst he
    simp only [API.CancelActiveOffers, hfetch]
  · intro herr
    simp only at herr
    subst herr
    have hrun : api.CancelActiveOffers E w = api.cancelEach E offers w₁ := by
      simp only [API.CancelActiveOffers, hfetch]
    refine ⟨?_, ?_⟩
    · intro pre o post e hdec hpre ho
      simp only at hdec
      rw [hrun, hdec, cancelEach_prefix E api pre (o :: post) w₁ hpre]
      rcases hc : api.CancelOffer E o.ID
        (worldAfterCancels E api (pre.map (fun o => o.ID)) w₁) with ⟨r, w₂⟩
      rw [hc] at ho
      simp only at ho
      subst ho
      have hw : worldAfterCancels E api ((pre ++ [o]).map (fun o => o.ID)) w₁ = w₂ := by
        simp only [worldAfterCancels, List.map_append, List.map_cons, List.map_nil,
          List.foldl_append, List.foldl_cons, List.foldl_nil]
        simp only [worldAfterCancels] at hc
        rw [hc]
      simp only [API.cancelEach, hc, hw]
    · intro hall
      have := cancelEach_prefix E api offers [] w₁ hall
      rw [List.append_nil] at this
      rw [hrun, this]
      rfl

/-- Witness for C9: of the offers 7, 8, 9 the cancel of 7 succeeds and the cancel of
8 fails; the exchange has received the listing request and the cancel requests for 7
and 8, and none for 9, whose reply is still pending. -/
theorem cancelActiveOffers_stops_at_first_failure_witness :
    sampleAPI.CancelActiveOffers sampleEnv scriptSecondCancelFails
        = (some (errorsNew "API: Offer already cancelled"),
          worldAfterCancels sampleEnv sampleAPI
            (([({ ID := 7, Currency := "USD" } : Offer)] ++
              [({ ID := 8, Currency := "btc" } : Offer)]).map (fun o => o.ID))
            (sampleAPI.ActiveOffers sampleEnv scriptSecondCancelFails).2) ∧
      (sampleAPI.CancelActiveOffers sampleEnv scriptSecondCancelFails).2.received.map
          (fun r => r.body)
        = [bytesOfString (payloadOffers 1), bytesOfString (payloadCancel 2 7),
          bytesOfString (payloadCancel 3 8)] ∧
      (sampleAPI.CancelActiveOffers sampleEnv scriptSecondCancelFails).2.replies.length
        = 1 := by
  refine ⟨((cancelActiveOffers_stops_at_first_failure sampleEnv sampleAPI
    scriptSecondCancelFails).2 (by decide)).1 [{ ID := 7, Currency := "USD" }]
    { ID := 8, Currency := "btc" } [{ ID := 9, Currency := "usd" }]
    (errorsNew "API: Offer already cancelled") (by rfl) ?_ (by decide), by decide, by decide⟩
  intro pre₁ o₁ post₁ h
  rcases pre₁ with _ | ⟨a, l⟩
  · simp only [List.nil_append, List.cons.injEq] at h
    obtain ⟨rfl, _⟩ := h
    decide
  · simp at h

/-- C10: `CancelActiveOffersByCurrency c` is `CancelActiveOffers` run in the world
whose listing shows only the offers with currency equal to `c` ignoring letter case
(order kept): same error, same final state.  When the listing succeeds, it is the
cancel loop on that sub-list, so the calls of `CancelOffer` it makes are those for a
prefix of the sub-list, in listed order, the whole sub-list when no error is
returned; no call is made for an offer of another currency. -/
theorem cancelActiveOffersByCurrency_refines {σ : Type} (E : Env σ) (api : API)
    (currency : String) (w : σ) :
    api.CancelActiveOffersByCurrency E currency w
      = api.CancelActiveOffers
        (E.listingOnly (fun o => equalIgnoringCase E o.Currency currency)) w ∧
    ((api.ActiveOffers E w).1.2 = none →
      api.CancelActiveOffersByCurrency E currency w
        = api.cancelEach E
          ((api.ActiveOffers E w).1.1.filter
            (fun o => equalIgnoringCase E o.Currency currency))
          (api.ActiveOffers E w).2 ∧
      ∃ n, n ≤ ((api.ActiveOffers E w).1.1.filter
            (fun o => equalIgnoringCase E o.Currency currency)).length ∧
        (api.CancelActiveOffersByCurrency E currency w).2
          = worldAfterCancels E api
            ((((api.ActiveOffers E w).1.1.filter
              (fun o => equalIgnoringCase E o.Currency currency)).take n).map
              (fun o => o.ID))
            (api.ActiveOffers E w).2 ∧
        ((api.CancelActiveOffersByCurrency E currency w).1 = none →
          n = ((api.ActiveOffers E w).1.1.filter
            (fun o => equalIgnoringCase E o.Currency currency)).length)) := by
  have hloop : ∀ offers w₁, api.cancelEachByCurrency E (E.toLower currency) offers w₁
      = api.cancelEach E (offers.filter (fun o => equalIgnoringCase E o.Currency currency))
        w₁ := by
    intro offers w₁
    rw [cancelEachByCurrency_eq_filter]
    rfl
  constructor
  · simp only [API.CancelActiveOffers, activeOffers_listingOnly]
    simp only [API.CancelActiveOffersByCurrency]
    rcases api.ActiveOffers E w with ⟨⟨offers, err⟩, w₁⟩
    cases err with
    | some e => rfl
    | none =>
      show api.cancelEachByCurrency E (E.toLower currency) offers w₁
        = api.cancelEach (E.listingOnly (fun o => equalIgnoringCase E o.Currency currency))
          (offers.filter (fun o => equalIgnoringCase E o.Currency currency)) w₁
      rw [hloop, cancelEach_listingOnly]
  · intro herr
    have hrun : api.CancelActiveOffersByCurrency E currency w
        = api.cancelEach E
          ((api.ActiveOffers E w).1.1.filter
            (fun o => equalIgnoringCase E o.Currency currency))
          (api.ActiveOffers E w).2 := by
      simp only [API.CancelActiveOffersByCurrency]
      revert herr
      rcases api.ActiveOffers E w with ⟨⟨offers, err⟩, w₁⟩
      intro herr
      cases herr
      exact hloop offers w₁
    refine ⟨hrun, ?_⟩
    rw [hrun]
    exact cancelEach_world E api _ _

/-- Witness for C10: of the offers 7 (USD), 8 (btc), 9 (usd), cancelling by currency
`Usd` sends the listing request and the cancel requests for 7 and 9 and none for 8. -/
theorem cancelActiveOffersByCurrency_refines_witness :
    sampleAPI.CancelActiveOffersByCurrency sampleEnv "Usd" scriptCancelUsd
        = sampleAPI.cancelEach sampleEnv
          ((sampleAPI.ActiveOffers sampleEnv scriptCancelUsd).1.1.filter
            (fun o => equalIgnoringCase sampleEnv o.Currency "Usd"))
          (sampleAPI.ActiveOffers sampleEnv scriptCancelUsd).2 ∧
      (sampleAPI.ActiveOffers sampleEnv scriptCancelUsd).1.1.filter
          (fun o => equalIgnoringCase sampleEnv o.Currency "Usd")
        = [{ ID := 7, Currency := "USD" }, { ID := 9, Currency := "usd" }] ∧
      (sampleAPI.CancelActiveOffersByCurrency sampleEnv "Usd" scriptCancelUsd).1 = none ∧
      (sampleAPI.CancelActiveOffersByCurrency sampleEnv "Usd" scriptCancelUsd).2.received.map
          (fun r => r.body)
        = [bytesOfString (payloadOffers 1), bytesOfString (payloadCancel 2 7),
          bytesOfString (payloadCancel 3 9)] :=
  ⟨((cancelActiveOffersByCurrency_refines sampleEnv sampleAPI "Usd" scriptCancelUsd).2
      (by decide)).1, by decide, by decide, by decide⟩

/-! ## Statistics and the lend book -/

/-- C11: whenever `Stats` returns no error the sequence it returns is non-empty; a
body that parses as the empty sequence always yields an error, and so does a body
that does not give a non-empty sequence and parses as an `ErrorMessage` with message
`m` (an error envelope), for which the error is `API: m`. -/
theorem stats_success_is_nonempty {σ : Type} (E : Env σ) (api : API) (symbol : String)
    (w : σ) :
    ((api.Stats E symbol w).1.2 = none → (api.Stats E symbol w).1.1 ≠ []) ∧
    (∀ (body : Body) (w' : σ),
      api.get E ("/v1/stats/" ++ E.toLower symbol) w = (.ok body, w') →
      (E.unmarshalStats body = ⟨[], none⟩ → (api.Stats E symbol w).1.2 ≠ none) ∧
      (∀ m : String,
        (E.unmarshalStats body).err ≠ none ∨ (E.unmarshalStats body).value = [] →
        E.unmarshalErrorMessage body = ⟨⟨m⟩, none⟩ →
        (api.Stats E symbol w).1.2 = some (errorsNew ("API: " ++ m)))) := by
  constructor
  · rcases hg : api.get E ("/v1/stats/" ++ E.toLower symbol) w with ⟨r, w'⟩
    simp only [API.Stats, hg]
    cases r with
    | error e => simp
    | ok body =>
      dsimp only
      split
      · cases (E.unmarshalErrorMessage body).err <;> simp
      · rename_i hc
        intro _ hnil
        apply hc
        simp only at hnil
        simp [hnil]
  · intro body w' hget
    constructor
    · intro hdec
      simp only [API.Stats, hget, hdec]
      cases (E.unmarshalErrorMessage body).err <;> simp
    · intro m hbad henv
      have hc : ((E.unmarshalStats body).err.isSome ||
          (E.unmarshalStats body).value.length == 0) = true := by
        rcases hbad with h | h
        · obtain ⟨e₁, he₁⟩ := Option.ne_none_iff_exists'.mp h
          simp [he₁]
        · simp [h]
      simp only [API.Stats, hget, hc, if_true, henv]

/-- Witness for C11: a body with one entry gives a success with one entry, the body
`[]` gives an error, and the envelope of an unknown symbol gives the API error. -/
theorem stats_success_is_nonempty_witness :
    (sampleAPI.Stats sampleEnv "BTCUSD" (Script.ofBodies [bodyStats])).1.1 ≠ [] ∧
      (sampleAPI.Stats sampleEnv "btcusd" (Script.ofBodies [bodyEmptyArray])).1.2 ≠ none ∧
      (sampleAPI.Stats sampleEnv "random" (Script.ofBodies [bodyUnknownSymbol])).1.2
        = some (errorsNew ("API: " ++ "Unknown symbol")) :=
  ⟨(stats_success_is_nonempty sampleEnv sampleAPI "BTCUSD"
      (Script.ofBodies [bodyStats])).1 (by decide),
    ((stats_success_is_nonempty sampleEnv sampleAPI "btcusd"
      (Script.ofBodies [bodyEmptyArray])).2 (bytesOfString bodyEmptyArray)
      ⟨[], [⟨"GET", APIURL ++ "/v1/stats/btcusd", [], []⟩], 1⟩ (by rfl)).1 (by rfl),
    ((stats_success_is_nonempty sampleEnv sampleAPI "random"
      (Script.ofBodies [bodyUnknownSymbol])).2 (bytesOfString bodyUnknownSymbol)
      ⟨[], [⟨"GET", APIURL ++ "/v1/stats/random", [], []⟩], 1⟩ (by rfl)).2 "Unknown symbol"
      (Or.inl (by decide)) (by rfl)⟩

/-- The loop body of `Lendbook` changes nothing but `FRR`. -/
theorem frrConverted_convertFRR {σ : Type} (E : Env σ) (e : LendbookOffer) :
    frrConverted E e (convertFRR E e) := by
  unfold frrConverted convertFRR
  by_cases h : E.toLower e.FRRString = "yes"
  · simp [h]
  · simp [h]

/-- C12: when the body parses as the lend book `book` and `book` passes the
plausibility check, `Lendbook` returns no error and a book with as many bids and asks
as parsed, in the parsed order, in which every offer is the parsed offer at the same
position with `Rate`, `Amount`, `Period`, `Timestamp` and `FRRString` unchanged, with
`FRR` true when its `frr` string is "yes" ignoring letter case, and with the parsed
`FRR` otherwise. -/
theorem lendbook_converts_only_frr {σ : Type} (E : Env σ) (api : API) (currency : String)
    (limitBids limitAsks : Int) (w w' : σ) (body : Body) (book : Lendbook)
    (hget : api.get E ("/v1/lendbook/" ++ E.toLower currency ++ "?limit_bids=" ++
      Itoa limitBids ++ "&limit_asks=" ++ Itoa limitAsks) w = (.ok body, w'))
    (hdec : E.unmarshalLendbook body = ⟨book, none⟩)
    (hpass : ¬ ((limitAsks ≠ 0 ∧ book.Asks = []) ∨ (limitBids ≠ 0 ∧ book.Bids = []))) :
    (api.Lendbook E currency limitBids limitAsks w).1.2 = none ∧
    (api.Lendbook E currency limitBids limitAsks w).1.1.Bids.length = book.Bids.length ∧
    (api.Lendbook E currency limitBids limitAsks w).1.1.Asks.length = book.Asks.length ∧
    List.Forall₂ (frrConverted E) book.Bids
      (api.Lendbook E currency limitBids limitAsks w).1.1.Bids ∧
    List.Forall₂ (frrConverted E) book.Asks
      (api.Lendbook E currency limitBids limitAsks w).1.1.Asks ∧
    (E.toLower "yes" = "yes" →
      ∀ e : LendbookOffer,
        E.toLower e.FRRString = "yes" ↔ equalIgnoringCase E e.FRRString "yes" = true) := by
  have hc : ¬ ((limitAsks ≠ 0 ∧ book.Asks.length = 0) ∨
      (limitBids ≠ 0 ∧ book.Bids.length = 0)) := by
    simpa [List.length_eq_zero] using hpass
  have hr : (api.Lendbook E currency limitBids limitAsks w).1 =
      (({ Bids := book.Bids.map (convertFRR E), Asks := book.Asks.map (convertFRR E) } :
        Lendbook), none) := by
    simp only [API.Lendbook, hget, hdec, if_neg hc]
  have hall : ∀ l : List LendbookOffer,
      List.Forall₂ (frrConverted E) l (l.map (convertFRR E)) := by
    intro l
    rw [List.forall₂_map_right_iff, List.forall₂_same]
    exact fun e _ => frrConverted_convertFRR E e
  rw [hr]
  refine ⟨rfl, by simp, by simp, hall book.Bids, hall book.Asks, ?_⟩
  intro hyes e
  simp [equalIgnoringCase, hyes]

/-- Witness for C12: the bid with `"frr":"Yes"` comes back with `FRR` true, the ask
with `"frr":"No"` comes back as parsed. -/
theorem lendbook_converts_only_frr_witness :
    (sampleAPI.Lendbook sampleEnv "USD" 2 2 (Script.ofBodies [bodyLendbook])).1
      = ({ Bids := [{ sampleBid with FRR := true }], Asks := [sampleAsk] }, none) ∧
      List.Forall₂ (frrConverted sampleEnv) sampleLendbook.Bids
        (sampleAPI.Lendbook sampleEnv "USD" 2 2 (Script.ofBodies [bodyLendbook])).1.1.Bids :=
  ⟨by decide,
    (lendbook_converts_only_frr sampleEnv sampleAPI "USD" 2 2
      (Script.ofBodies [bodyLendbook])
      ⟨[], [⟨"GET", APIURL ++ "/v1/lendbook/usd?limit_bids=2&limit_asks=2", [], []⟩], 1⟩
      (bytesOfString bodyLendbook) sampleLendbook (by rfl) (by rfl) (by decide)).2.2.2.1⟩

end Bitfinex
